import Mathlib

/-!
# Verification of the id8 backend's response-normalization and collaboration layers

This file gives a shallow embedding, in Lean 4, of the parsing/normalization
functions of `backend/llm.py` (`extract_json_array`, `parse_idea_response`,
`parse_single_idea`, `parse_deep_dive_response`, `parse_by_headers`,
`parse_by_numbering`, `parse_lens_insight_response`) and of the collaborative
editing operations of `backend/app/routers/collaboration.py` and
`backend/app/routers/ideas.py` (`update_idea`), together with theorems about
them.

Modelling conventions:
* Python JSON values are modelled by the inductive `Json` below.  JSON
  floating-point literals are outside the model (the embedded `json_loads`
  rejects them); every theorem whose hypothesis constrains `json_loads`
  therefore ranges over float-free JSON texts.  `NaN`/`Infinity` literals and
  surrogate `\uXXXX` escapes are likewise rejected by the embedded parser.
* Python `dict`s (which preserve insertion order, with value replacement on
  duplicate keys) are modelled as association lists `List (String × Json)`
  manipulated through `dictSet` / `dictLookup?`.
* Python exceptions that the source code does NOT catch are made explicit: the
  embedded `parse_idea_response` returns `Except PyExn _`, with `PyExn` raised
  exactly where the Python can raise (the `>=` / `<=` comparisons of the
  quality filter applied to non-numeric values).  All other embedded parsing
  functions are total, mirroring the fact that every fallible call in their
  bodies is wrapped in `try/except` in the source.
* Character classes: the regex class `\s` and Python's `str.strip` are
  modelled over the six ASCII whitespace characters; the Unicode whitespace
  and case-folding extensions of Python are outside the model.
-/

namespace Id8

/-! ## JSON values (the result type of Python's `json.loads`) -/

/-- A Python JSON value: `None`, `bool`, `int`, `str`, `list`, `dict`.
Object member order is significant (Python dicts preserve insertion order). -/
inductive Json where
  | null : Json
  | bool (b : Bool) : Json
  | int (n : Int) : Json
  | str (s : String) : Json
  | arr (l : List Json) : Json
  | obj (kvs : List (String × Json)) : Json
deriving Repr

mutual

/-- Decidable equality for `Json` (hand-rolled: automatic derivation does not
handle the nested `List` occurrences). -/
def Json.decEq : (a b : Json) → Decidable (a = b)
  | .null, .null => .isTrue rfl
  | .bool a, .bool b =>
    if h : a = b then .isTrue (by rw [h]) else .isFalse (fun hh => h (Json.bool.inj hh))
  | .int a, .int b =>
    if h : a = b then .isTrue (by rw [h]) else .isFalse (fun hh => h (Json.int.inj hh))
  | .str a, .str b =>
    if h : a = b then .isTrue (by rw [h]) else .isFalse (fun hh => h (Json.str.inj hh))
  | .arr a, .arr b =>
    match Json.decEqList a b with
    | .isTrue h => .isTrue (by rw [h])
    | .isFalse h => .isFalse (fun hh => h (Json.arr.inj hh))
  | .obj a, .obj b =>
    match Json.decEqObj a b with
    | .isTrue h => .isTrue (by rw [h])
    | .isFalse h => .isFalse (fun hh => h (Json.obj.inj hh))
  | .null, .bool _ => .isFalse fun h => Json.noConfusion h
  | .null, .int _ => .isFalse fun h => Json.noConfusion h
  | .null, .str _ => .isFalse fun h => Json.noConfusion h
  | .null, .arr _ => .isFalse fun h => Json.noConfusion h
  | .null, .obj _ => .isFalse fun h => Json.noConfusion h
  | .bool _, .null => .isFalse fun h => Json.noConfusion h
  | .bool _, .int _ => .isFalse fun h => Json.noConfusion h
  | .bool _, .str _ => .isFalse fun h => Json.noConfusion h
  | .bool _, .arr _ => .isFalse fun h => Json.noConfusion h
  | .bool _, .obj _ => .isFalse fun h => Json.noConfusion h
  | .int _, .null => .isFalse fun h => Json.noConfusion h
  | .int _, .bool _ => .isFalse fun h => Json.noConfusion h
  | .int _, .str _ => .isFalse fun h => Json.noConfusion h
  | .int _, .arr _ => .isFalse fun h => Json.noConfusion h
  | .int _, .obj _ => .isFalse fun h => Json.noConfusion h
  | .str _, .null => .isFalse fun h => Json.noConfusion h
  | .str _, .bool _ => .isFalse fun h => Json.noConfusion h
  | .str _, .int _ => .isFalse fun h => Json.noConfusion h
  | .str _, .arr _ => .isFalse fun h => Json.noConfusion h
  | .str _, .obj _ => .isFalse fun h => Json.noConfusion h
  | .arr _, .null => .isFalse fun h => Json.noConfusion h
  | .arr _, .bool _ => .isFalse fun h => Json.noConfusion h
  | .arr _, .int _ => .isFalse fun h => Json.noConfusion h
  | .arr _, .str _ => .isFalse fun h => Json.noConfusion h
  | .arr _, .obj _ => .isFalse fun h => Json.noConfusion h
  | .obj _, .null => .isFalse fun h => Json.noConfusion h
  | .obj _, .bool _ => .isFalse fun h => Json.noConfusion h
  | .obj _, .int _ => .isFalse fun h => Json.noConfusion h
  | .obj _, .str _ => .isFalse fun h => Json.noConfusion h
  | .obj _, .arr _ => .isFalse fun h => Json.noConfusion h

/-- Decidable equality for lists of `Json`. -/
def Json.decEqList : (a b : List Json) → Decidable (a = b)
  | [], [] => .isTrue rfl
  | [], _ :: _ => .isFalse fun h => List.noConfusion h
  | _ :: _, [] => .isFalse fun h => List.noConfusion h
  | x :: xs, y :: ys =>
    match Json.decEq x y with
    | .isFalse h => .isFalse (fun hh => h (List.cons.inj hh).1)
    | .isTrue h1 =>
      match Json.decEqList xs ys with
      | .isTrue h2 => .isTrue (by rw [h1, h2])
      | .isFalse h => .isFalse (fun hh => h (List.cons.inj hh).2)

/-- Decidable equality for JSON object member lists. -/
def Json.decEqObj : (a b : List (String × Json)) → Decidable (a = b)
  | [], [] => .isTrue rfl
  | [], _ :: _ => .isFalse fun h => List.noConfusion h
  | _ :: _, [] => .isFalse fun h => List.noConfusion h
  | (k, v) :: xs, (k', v') :: ys =>
    if hk : k = k' then
      match Json.decEq v v' with
      | .isFalse h =>
        .isFalse (fun hh => h (congrArg Prod.snd (List.cons.inj hh).1))
      | .isTrue h1 =>
        match Json.decEqObj xs ys with
        | .isTrue h2 => .isTrue (by rw [hk, h1, h2])
        | .isFalse h => .isFalse (fun hh => h (List.cons.inj hh).2)
    else .isFalse (fun hh => hk (congrArg Prod.fst (List.cons.inj hh).1))

end

instance : DecidableEq Json := Json.decEq

instance : BEq Json := ⟨fun a b => decide (a = b)⟩

instance : LawfulBEq Json where
  eq_of_beq h := of_decide_eq_true h
  rfl := by simp [BEq.beq]

/-- Association-list lookup of the first binding of `k` (Python dicts built by
the embedded parser and by `dictSet` never hold duplicate keys, so the first
binding is the binding). -/
def dictLookup? (d : List (String × Json)) (k : String) : Option Json :=
  match d.find? (fun p => p.1 == k) with
  | some p => some p.2
  | none => none

/-- `d.get(k, v)` of Python. -/
def dictGetD (d : List (String × Json)) (k : String) (v : Json) : Json :=
  (dictLookup? d k).getD v

/-- Python `d[k] = v`: replace the value of an existing binding in place
(keeping its position, as Python dicts do) or append a new binding. -/
def dictSet (d : List (String × Json)) (k : String) (v : Json) :
    List (String × Json) :=
  match d with
  | [] => [(k, v)]
  | p :: t => if p.1 == k then (k, v) :: t else p :: dictSet t k v

/-- Python `dst.update(src)`: insert the bindings of `src` in order. -/
def dictUpdate (dst src : List (String × Json)) : List (String × Json) :=
  src.foldl (fun d p => dictSet d p.1 p.2) dst

/-- Python truthiness of a JSON value (`bool(v)`). -/
def jsonTruthy : Json → Bool
  | .null => false
  | .bool b => b
  | .int n => n != 0
  | .str s => s ≠ ""
  | .arr l => !l.isEmpty
  | .obj kvs => !kvs.isEmpty

/-! ## Python string primitives -/

/-- The six ASCII whitespace characters (model of `\s` and `str.strip`). -/
def isPyWs (c : Char) : Bool :=
  c = ' ' || c = '\t' || c = '\n' || c = '\r' || c = '\x0b' || c = '\x0c'

/-- Python `str.strip()`. -/
def pyStrip (s : String) : String :=
  String.mk (((s.toList.dropWhile isPyWs).reverse.dropWhile isPyWs).reverse)

/-- Python `str.lower()` (ASCII fragment). -/
def asciiLower (s : String) : String :=
  String.mk (s.toList.map fun c =>
    if 'A' ≤ c ∧ c ≤ 'Z' then Char.ofNat (c.toNat + 32) else c)

/-- `sub` occurs as a contiguous sublist of `l`. -/
def listInfixOf (sub : List Char) : List Char → Bool
  | [] => sub.isPrefixOf []
  | c :: t => sub.isPrefixOf (c :: t) || listInfixOf sub t

/-- Python `sub in s`. -/
def strContains (s sub : String) : Bool :=
  listInfixOf sub.toList s.toList

/-- Python `s.startswith(pre)`. -/
def strStartsWith (s pre : String) : Bool :=
  pre.toList.isPrefixOf s.toList

/-- Python `s.startswith((p1, p2, ...))`. -/
def startsWithAny (s : String) (ps : List String) : Bool :=
  ps.any (strStartsWith s)

/-- Split on a separator character (keeping empty pieces). -/
def splitChar (c : Char) : List Char → List (List Char)
  | [] => [[]]
  | x :: t =>
    match splitChar c t with
    | [] => [[]]
    | h :: r => if x = c then [] :: h :: r else (x :: h) :: r

/-- Python `str.split(sep)` for a one-character separator (the source only
splits on `'\n'` and `'.'`): keeps empty pieces. -/
def pySplit (s : String) (sep : Char) : List String :=
  (splitChar sep s.toList).map String.mk

/-! ## Python `repr`/`str` and `json.dumps(·, indent=2)` -/

/-- Lowercase hex digit. -/
def hexDigit (n : Nat) : Char :=
  if n < 10 then Char.ofNat ('0'.toNat + n) else Char.ofNat ('a'.toNat + (n - 10))

/-- Two lowercase hex digits. -/
def hex2 (n : Nat) : String :=
  String.mk [hexDigit (n / 16 % 16), hexDigit (n % 16)]

/-- Four lowercase hex digits. -/
def hex4 (n : Nat) : String :=
  String.mk [hexDigit (n / 4096 % 16), hexDigit (n / 256 % 16),
             hexDigit (n / 16 % 16), hexDigit (n % 16)]

/-- One character of a JSON string under `json.dumps` defaults
(`ensure_ascii=True`): everything outside printable ASCII is `\uXXXX`-escaped
(astral characters as a surrogate pair). -/
def jsonEscapeChar (c : Char) : String :=
  if c = '"' then "\\\""
  else if c = '\\' then "\\\\"
  else if c = '\n' then "\\n"
  else if c = '\r' then "\\r"
  else if c = '\t' then "\\t"
  else if c.toNat = 8 then "\\b"
  else if c.toNat = 12 then "\\f"
  else if c.toNat < 0x20 ∨ c.toNat > 0x7e then
    if c.toNat ≤ 0xffff then "\\u" ++ hex4 c.toNat
    else
      "\\u" ++ hex4 (0xd800 + (c.toNat - 0x10000) / 0x400) ++
      "\\u" ++ hex4 (0xdc00 + (c.toNat - 0x10000) % 0x400)
  else String.singleton c

/-- A JSON string literal as `json.dumps` renders it. -/
def jsonQuote (s : String) : String :=
  "\"" ++ String.join (s.toList.map jsonEscapeChar) ++ "\""

/-- `n` spaces. -/
def nspaces (n : Nat) : String := String.mk (List.replicate n ' ')

/-- Python `json.dumps(v, indent=2)`, rendered at nesting level `lvl`
(top-level call is `lvl = 0`). -/
def dumpsIndent2 (lvl : Nat) : Json → String
  | .null => "null"
  | .bool b => if b then "true" else "false"
  | .int n => toString n
  | .str s => jsonQuote s
  | .arr l =>
    if l.isEmpty then "[]"
    else
      "[\n" ++
      String.intercalate ",\n"
        (l.attach.map fun y =>
          nspaces (2 * (lvl + 1)) ++ dumpsIndent2 (lvl + 1) y.1) ++
      "\n" ++ nspaces (2 * lvl) ++ "]"
  | .obj kvs =>
    if kvs.isEmpty then "\x7b\x7d"
    else
      "\x7b\n" ++
      String.intercalate ",\n"
        (kvs.attach.map fun y =>
          nspaces (2 * (lvl + 1)) ++ jsonQuote y.1.1 ++ ": " ++
          dumpsIndent2 (lvl + 1) y.1.2) ++
      "\n" ++ nspaces (2 * lvl) ++ "\x7d"
termination_by j => sizeOf j
decreasing_by
  · have h := List.sizeOf_lt_of_mem y.2
    simp_wf
    omega
  · obtain ⟨⟨k, v⟩, hm⟩ := y
    have h := List.sizeOf_lt_of_mem hm
    simp at h
    simp_wf
    omega

/-- Python `repr` of a `str`, rendered with quote character `q`. -/
def pyReprStrQuote (q : Char) (s : String) : String :=
  String.singleton q ++
  String.join (s.toList.map fun c =>
    if c = '\\' then "\\\\"
    else if c = q then "\\" ++ String.singleton q
    else if c = '\n' then "\\n"
    else if c = '\r' then "\\r"
    else if c = '\t' then "\\t"
    else if c.toNat < 0x20 ∨ c.toNat = 0x7f then "\\x" ++ hex2 c.toNat
    else String.singleton c) ++
  String.singleton q

/-- Python `repr` of a `str`: single quotes, unless the string holds a single
quote and no double quote. -/
def pyReprStr (s : String) : String :=
  if s.toList.contains '\'' ∧ ¬ s.toList.contains '"' then pyReprStrQuote '"' s
  else pyReprStrQuote '\'' s

/-- Python `repr` of a JSON value. -/
def pyRepr : Json → String
  | .null => "None"
  | .bool b => if b then "True" else "False"
  | .int n => toString n
  | .str s => pyReprStr s
  | .arr l =>
    "[" ++ String.intercalate ", " (l.attach.map fun y => pyRepr y.1) ++ "]"
  | .obj kvs =>
    "\x7b" ++
    String.intercalate ", "
      (kvs.attach.map fun y => pyReprStr y.1.1 ++ ": " ++ pyRepr y.1.2) ++
    "\x7d"
termination_by j => sizeOf j
decreasing_by
  · have h := List.sizeOf_lt_of_mem y.2
    simp_wf
    omega
  · obtain ⟨⟨k, v⟩, hm⟩ := y
    have h := List.sizeOf_lt_of_mem hm
    simp at h
    simp_wf
    omega

/-- Python `str` of a JSON value (`str(v)`): the string itself for a `str`,
`repr` otherwise. -/
def pyStr : Json → String
  | .str s => s
  | v => pyRepr v

/-! ## The embedding of Python's `json.loads`

A strict JSON reader over `List Char`, fuelled for termination.  Per the
conventions above it rejects floating-point literals, `NaN`/`Infinity`, and
surrogate escapes; on everything else it follows `json.loads` (strict mode:
unescaped control characters inside strings are rejected, object member order
is preserved, and a duplicate key replaces the value of the earlier binding in
place). -/

/-- JSON inter-token whitespace. -/
def isJsonWs (c : Char) : Bool :=
  c = ' ' || c = '\t' || c = '\n' || c = '\r'

/-- Skip inter-token whitespace. -/
def skipJsonWs (l : List Char) : List Char := l.dropWhile isJsonWs

/-- The `{` character (written via its code point). -/
def lbrace : Char := '\x7b'

/-- The `}` character (written via its code point). -/
def rbrace : Char := '\x7d'

/-- Hexadecimal digit value. -/
def hexVal? (c : Char) : Option Nat :=
  if '0' ≤ c ∧ c ≤ '9' then some (c.toNat - '0'.toNat)
  else if 'a' ≤ c ∧ c ≤ 'f' then some (c.toNat - 'a'.toNat + 10)
  else if 'A' ≤ c ∧ c ≤ 'F' then some (c.toNat - 'A'.toNat + 10)
  else none

/-- Decimal digit run to a number. -/
def digitsToNat (ds : List Char) : Nat :=
  ds.foldl (fun a c => a * 10 + (c.toNat - '0'.toNat)) 0

/-- Body of a JSON string literal (input is positioned after the opening
quote); returns the decoded characters and the input after the closing
quote. -/
def parseStrBody : Nat → List Char → Option (List Char × List Char)
  | 0, _ => none
  | _ + 1, [] => none
  | fuel + 1, c :: t =>
    if c = '"' then some ([], t)
    else if c = '\\' then
      match t with
      | [] => none
      | e :: t1 =>
        if e = 'u' then
          match t1 with
          | a :: b :: c2 :: d :: t2 =>
            match hexVal? a, hexVal? b, hexVal? c2, hexVal? d with
            | some x1, some x2, some x3, some x4 =>
              let n := ((x1 * 16 + x2) * 16 + x3) * 16 + x4
              if 0xd800 ≤ n ∧ n ≤ 0xdfff then none
              else
                (parseStrBody fuel t2).map fun p => (Char.ofNat n :: p.1, p.2)
            | _, _, _, _ => none
          | _ => none
        else
          match
            (if e = '"' then some '"'
             else if e = '\\' then some '\\'
             else if e = '/' then some '/'
             else if e = 'b' then some '\x08'
             else if e = 'f' then some '\x0c'
             else if e = 'n' then some '\n'
             else if e = 'r' then some '\r'
             else if e = 't' then some '\t'
             else none) with
          | some d => (parseStrBody fuel t1).map fun p => (d :: p.1, p.2)
          | none => none
    else if c.toNat < 0x20 then none
    else (parseStrBody fuel t).map fun p => (c :: p.1, p.2)

mutual

/-- Read one JSON value (leading whitespace allowed); returns the value and
the remaining input. -/
def parseVal : Nat → List Char → Option (Json × List Char)
  | 0, _ => none
  | fuel + 1, l =>
    match skipJsonWs l with
    | [] => none
    | c :: t =>
      if c = '"' then
        (parseStrBody (fuel + 1) t).map fun p => (.str (String.mk p.1), p.2)
      else if c = '[' then
        match skipJsonWs t with
        | ']' :: r => some (.arr [], r)
        | u => parseArrLoop fuel u []
      else if c = lbrace then
        match skipJsonWs t with
        | d :: r => if d = rbrace then some (.obj [], r) else parseObjLoop fuel (d :: r) []
        | [] => none
      else if c = 't' then
        if t.take 3 = ['r', 'u', 'e'] then some (.bool true, t.drop 3) else none
      else if c = 'f' then
        if t.take 4 = ['a', 'l', 's', 'e'] then some (.bool false, t.drop 4) else none
      else if c = 'n' then
        if t.take 3 = ['u', 'l', 'l'] then some (.null, t.drop 3) else none
      else if c = '-' ∨ c.isDigit then
        let sign := c = '-'
        let l1 := if c = '-' then t else c :: t
        match l1 with
        | [] => none
        | d :: t1 =>
          if d = '0' then some (.int 0, t1)
          else if d.isDigit then
            let ds := d :: t1.takeWhile Char.isDigit
            let rest := t1.dropWhile Char.isDigit
            some (.int (if sign then -(digitsToNat ds : Int) else (digitsToNat ds : Int)), rest)
          else none
      else none

/-- Elements of a nonempty JSON array (input positioned at the first
element). -/
def parseArrLoop : Nat → List Char → List Json → Option (Json × List Char)
  | 0, _, _ => none
  | fuel + 1, l, acc =>
    match parseVal fuel l with
    | none => none
    | some (v, r) =>
      match skipJsonWs r with
      | ',' :: r1 => parseArrLoop fuel r1 (acc ++ [v])
      | c :: r1 => if c = ']' then some (.arr (acc ++ [v]), r1) else none
      | [] => none

/-- Members of a nonempty JSON object (input positioned at the first key).  A
duplicate key replaces the earlier value in place, as in a Python dict. -/
def parseObjLoop : Nat → List Char → List (String × Json) →
    Option (Json × List Char)
  | 0, _, _ => none
  | fuel + 1, l, acc =>
    match skipJsonWs l with
    | '"' :: t =>
      match parseStrBody (fuel + 1) t with
      | none => none
      | some (k, r) =>
        match skipJsonWs r with
        | ':' :: r1 =>
          match parseVal fuel r1 with
          | none => none
          | some (v, r2) =>
            let acc1 := dictSet acc (String.mk k) v
            match skipJsonWs r2 with
            | ',' :: r3 => parseObjLoop fuel r3 acc1
            | c :: r3 => if c = rbrace then some (.obj acc1, r3) else none
            | [] => none
        | _ => none
    | _ => none

end

/-- Python `json.loads` (returns `none` where Python raises
`json.JSONDecodeError`). -/
def json_loads (s : String) : Option Json :=
  match parseVal (2 * s.length + 8) s.toList with
  | some (v, rest) => if skipJsonWs rest = [] then some v else none
  | none => none

/-! ## `extract_json_array` (llm.py)

`re.search(r'\[\s*{.*?}\s*\]', text, re.DOTALL)` followed by `json.loads` of
the match; if no match, `json.loads` of the whole text.  With the lazy `.*?`
and the deterministic `\s*` runs, the regex semantics are: at the leftmost
position holding `[`, whitespace, `{`, take the shortest body ending at a `}`
that is followed by whitespace and `]`. -/

/-- Scan for the lazy end `}\s*\]` of the matched object body; returns the
consumed characters (through the `]`) and the rest. -/
def findObjEnd : List Char → Option (List Char × List Char)
  | [] => none
  | c :: t =>
    if c = rbrace then
      let w := t.takeWhile isPyWs
      match t.dropWhile isPyWs with
      | ']' :: rest => some (rbrace :: (w ++ [']']), rest)
      | _ => (findObjEnd t).map fun p => (c :: p.1, p.2)
    else (findObjEnd t).map fun p => (c :: p.1, p.2)

/-- Try the array regex at the current position. -/
def matchArrAt (l : List Char) : Option (List Char) :=
  match l with
  | '[' :: t =>
    let w := t.takeWhile isPyWs
    match t.dropWhile isPyWs with
    | d :: u =>
      if d = lbrace then (findObjEnd u).map fun p => '[' :: (w ++ lbrace :: p.1)
      else none
    | [] => none
  | _ => none

/-- Leftmost match of the array regex. -/
def searchJsonArr : List Char → Option (List Char)
  | [] => none
  | c :: t =>
    match matchArrAt (c :: t) with
    | some m => some m
    | none => searchJsonArr t

/-- `extract_json_array` of llm.py: parse the regex match if there is one
(returning `none` — Python `None` — if that parse fails), otherwise parse the
whole text. -/
def extract_json_array (text : String) : Option Json :=
  match searchJsonArr text.toList with
  | some m => json_loads (String.mk m)
  | none => json_loads text

/-! ## The section split of `parse_idea_response`

The split pattern in the source is `r'\\*\\*Idea \\d+|^Idea \\d+|^\\d+\\. '`
(with `re.MULTILINE`).  Because the backslashes are doubled inside a raw
string, each `\\` is a literal backslash and each `d+` is a run of the letter
`d`: alternative 1 is backslash*, `"Idea "`, backslash, `d`-run; alternative 2
anchors the same at a line start; alternative 3 is line start, backslash,
`d`-run, backslash, any non-newline character, space. -/

/-- Length of the leading run of characters satisfying `p`. -/
def runLen (p : Char → Bool) (l : List Char) : Nat := (l.takeWhile p).length

/-- Alternative 1 of the split pattern. -/
def altIdea1 (l : List Char) : Option Nat :=
  let nb := runLen (· = '\\') l
  let r := l.drop nb
  if "Idea ".toList.isPrefixOf r then
    match r.drop 5 with
    | '\\' :: r3 =>
      let nd := runLen (· = 'd') r3
      if nd ≥ 1 then some (nb + 5 + 1 + nd) else none
    | _ => none
  else none

/-- Alternative 2 of the split pattern (only at a line start). -/
def altIdea2 (l : List Char) : Option Nat :=
  if "Idea ".toList.isPrefixOf l then
    match l.drop 5 with
    | '\\' :: r3 =>
      let nd := runLen (· = 'd') r3
      if nd ≥ 1 then some (5 + 1 + nd) else none
    | _ => none
  else none

/-- Alternative 3 of the split pattern (only at a line start). -/
def altIdea3 (l : List Char) : Option Nat :=
  match l with
  | '\\' :: r =>
    let nd := runLen (· = 'd') r
    if nd ≥ 1 then
      match r.drop nd with
      | '\\' :: c :: ' ' :: _ => if c ≠ '\n' then some (nd + 4) else none
      | _ => none
    else none
  | _ => none

/-- First alternative matching at the current position. -/
def matchIdeaSep (atStart : Bool) (l : List Char) : Option Nat :=
  match altIdea1 l with
  | some n => some n
  | none =>
    if atStart then
      match altIdea2 l with
      | some n => some n
      | none => altIdea3 l
    else none

/-- The splitting scan of `re.split` (every match is at least one character
long, so fuel `length + 1` always suffices). -/
def reSplitIdeaGo : Nat → Bool → List Char → List Char → List String →
    List String
  | 0, _, acc, l, pieces => pieces ++ [String.mk (acc ++ l)]
  | fuel + 1, atStart, acc, l, pieces =>
    match l with
    | [] => pieces ++ [String.mk acc]
    | c :: t =>
      match matchIdeaSep atStart (c :: t) with
      | some n =>
        reSplitIdeaGo fuel false [] (List.drop n (c :: t))
          (pieces ++ [String.mk acc])
      | none => reSplitIdeaGo fuel (c = '\n') (acc ++ [c]) t pieces

/-- `re.split(r'\\*\\*Idea \\d+|^Idea \\d+|^\\d+\\. ', response,
flags=re.MULTILINE)`. -/
def re_split_idea (s : String) : List String :=
  reSplitIdeaGo (s.length + 1) true [] s.toList []

/-! ## `parse_single_idea` (llm.py) -/

/-- Leftmost match of `(\d+)/10`: the digit run must end immediately before
`/10`. -/
def findScoreSlash10 : List Char → Option Nat
  | [] => none
  | c :: t =>
    if c.isDigit then
      let ds := c :: t.takeWhile Char.isDigit
      match t.dropWhile Char.isDigit with
      | '/' :: '1' :: '0' :: _ => some (digitsToNat ds)
      | _ => findScoreSlash10 t
    else findScoreSlash10 t

/-- Leftmost case-insensitive match of `(side_hustle|full_scale)` (input is
the lowercased line). -/
def findTypeMatch : List Char → Option String
  | [] => none
  | c :: t =>
    if "side_hustle".toList.isPrefixOf (c :: t) then some "side_hustle"
    else if "full_scale".toList.isPrefixOf (c :: t) then some "full_scale"
    else findTypeMatch t

/-- The initial idea record of `parse_single_idea`. -/
def ideaDefaults : List (String × Json) :=
  [("title", .str ""), ("hook", .str ""), ("value", .str ""),
   ("evidence", .str ""), ("differentiator", .str ""),
   ("call_to_action", .str ""), ("score", .int 5), ("mvp_effort", .int 5),
   ("type", .null)]

/-- The first title scan (over the first three lines). -/
def titleScan1 : List String → Option String
  | [] => none
  | l :: t =>
    let line := pyStrip l
    if line = "" then titleScan1 t
    else if startsWithAny (asciiLower line)
        ["hook:", "value:", "evidence:", "differentiator:",
         "call to action:", "type:", "score:", "mvp"] then titleScan1 t
    else if 3 < line.length ∧ line.length < 100 ∧
        ¬ startsWithAny line ["•", "-", "*", "1.", "2.", "3."] = true then
      some line
    else titleScan1 t

/-- The second title scan (all lines, case-sensitive label prefixes). -/
def titleScan2 : List String → Option String
  | [] => none
  | l :: t =>
    let line := pyStrip l
    if line ≠ "" ∧ ¬ startsWithAny line
        ["Hook:", "Value:", "Evidence:", "Differentiator:",
         "Call to Action:", "Type:", "Score:", "MVP"] = true then
      if 10 < line.length ∧ line.length < 150 then some line else titleScan2 t
    else titleScan2 t

/-- State of the field-label scanner of `parse_single_idea`. -/
structure ScanState where
  idea : List (String × Json)
  cf : Option String
  cc : List String

/-- `if current_field and current_content: idea[current_field] = ...`. -/
def flushField (st : ScanState) : List (String × Json) :=
  match st.cf with
  | some f =>
    if st.cc ≠ [] then
      dictSet st.idea f (.str (pyStrip (String.intercalate "\n" st.cc)))
    else st.idea
  | none => st.idea

/-- One iteration of the field-label scanner. -/
def scanLine (st : ScanState) (l : String) : ScanState :=
  let line := pyStrip l
  if line = "" then st
  else
    let l0 := asciiLower line
    if strStartsWith l0 "hook" || strContains l0 "hook:" then
      { idea := flushField st, cf := some "hook", cc := [] }
    else if strStartsWith l0 "value" || strContains l0 "value:" then
      { idea := flushField st, cf := some "value", cc := [] }
    else if strStartsWith l0 "evidence" || strContains l0 "evidence:" then
      { idea := flushField st, cf := some "evidence", cc := [] }
    else if strStartsWith l0 "differentiator" ||
        strContains l0 "differentiator:" then
      { idea := flushField st, cf := some "differentiator", cc := [] }
    else if strStartsWith l0 "call to action" ||
        strContains l0 "call to action:" then
      { idea := flushField st, cf := some "call_to_action", cc := [] }
    else if strStartsWith l0 "type" || strContains l0 "type:" then
      let idea1 := flushField st
      let idea2 :=
        match findTypeMatch l0.toList with
        | some ty => dictSet idea1 "type" (.str ty)
        | none => idea1
      { idea := idea2, cf := none, cc := [] }
    else if strContains l0 "score" &&
        (strContains line "/10" || strContains l0 "out of 10") then
      let idea1 := flushField st
      let idea2 :=
        match findScoreSlash10 line.toList with
        | some n => dictSet idea1 "score" (.int n)
        | none => idea1
      { idea := idea2, cf := none, cc := [] }
    else if (strContains l0 "mvp" || strContains l0 "complexity") &&
        (strContains line "/10" || strContains l0 "out of 10") then
      let idea1 := flushField st
      let idea2 :=
        match findScoreSlash10 line.toList with
        | some n => dictSet idea1 "mvp_effort" (.int n)
        | none => idea1
      { idea := idea2, cf := none, cc := [] }
    else
      match st.cf with
      | some _ => { st with cc := st.cc ++ [line] }
      | none => st

/-- Use the first sentence of field `f` as the title, when the field is
truthy (the field holds a string on every path that reaches this helper). -/
def titleFromField (idea : List (String × Json)) (f : String) :
    List (String × Json) :=
  match dictGetD idea f (.str "") with
  | .str h =>
    match (pySplit h '.').head? with
    | some s0 => if s0 ≠ "" then dictSet idea "title" (.str (pyStrip s0)) else idea
    | none => idea
  | _ => idea

/-- The free-text scan of `parse_single_idea` (everything after the literal
JSON attempt), on the stripped chunk. -/
def parseSingleIdeaScan (s : String) : Option (List (String × Json)) :=
  let lines := pySplit s '\n'
  let title? :=
    match titleScan1 (lines.take 3) with
    | some t => some t
    | none => titleScan2 lines
  let idea0 :=
    match title? with
    | some t => dictSet ideaDefaults "title" (.str t)
    | none => ideaDefaults
  let stF := lines.foldl scanLine { idea := idea0, cf := none, cc := [] }
  let idea1 := flushField stF
  let idea2 :=
    if ¬ jsonTruthy (dictGetD idea1 "title" .null) then
      if jsonTruthy (dictGetD idea1 "hook" .null) then
        titleFromField idea1 "hook"
      else if jsonTruthy (dictGetD idea1 "value" .null) then
        titleFromField idea1 "value"
      else idea1
    else idea1
  if jsonTruthy (dictGetD idea2 "title" .null) then some idea2 else none

/-- `parse_single_idea` of llm.py. -/
def parse_single_idea (sec : String) : Option (List (String × Json)) :=
  let s := pyStrip sec
  if s = "" then none
  else
    match json_loads s with
    | some (.obj p) =>
      if jsonTruthy (dictGetD p "title" .null) ||
          jsonTruthy (dictGetD p "hook" .null) then
        some (dictUpdate ideaDefaults p)
      else parseSingleIdeaScan s
    | _ => parseSingleIdeaScan s

/-! ## `parse_idea_response` (llm.py)

The quality-filter comparisons `idea.get('score', 0) >= 8` and
`idea.get('mvp_effort', 10) <= 4` are the one place in the function where the
Python can raise (a `TypeError` on a non-numeric operand), and they are not
inside any `try`; the embedding therefore returns `Except PyExn _`. -/

/-- A Python exception escaping the parser. -/
inductive PyExn where
  | typeError : PyExn
deriving DecidableEq, Repr

/-- Python `v >= n` for a JSON value against an `int` (`bool` is an `int`
subclass; every other operand raises `TypeError`; floats are outside the
model). -/
def pyGeInt (v : Json) (n : Int) : Except PyExn Bool :=
  match v with
  | .int m => .ok (decide (n ≤ m))
  | .bool b => .ok (decide (n ≤ (if b then (1 : Int) else 0)))
  | _ => .error .typeError

/-- Python `v <= n`, as in `pyGeInt`. -/
def pyLeInt (v : Json) (n : Int) : Except PyExn Bool :=
  match v with
  | .int m => .ok (decide (m ≤ n))
  | .bool b => .ok (decide ((if b then (1 : Int) else 0) ≤ n))
  | _ => .error .typeError

/-- The fallback loop of `parse_idea_response`: parse each chunk and keep it
only when the quality filter passes (`and` short-circuits, so the
`mvp_effort` comparison only runs when the score comparison succeeded). -/
def qualityFold : List String → List Json → Except PyExn (List Json)
  | [], acc => .ok acc
  | c :: cs, acc =>
    match parse_single_idea c with
    | none => qualityFold cs acc
    | some idea =>
      match pyGeInt (dictGetD idea "score" (.int 0)) 8 with
      | .error e => .error e
      | .ok false => qualityFold cs acc
      | .ok true =>
        match pyLeInt (dictGetD idea "mvp_effort" (.int 10)) 4 with
        | .error e => .error e
        | .ok false => qualityFold cs acc
        | .ok true => qualityFold cs (acc ++ [.obj idea])

/-- `parse_idea_response` of llm.py: a non-empty JSON array found by
`extract_json_array` is returned verbatim; otherwise the text is split into
sections and each is parsed and quality-filtered. -/
def parse_idea_response (response : Option String) : Except PyExn (List Json) :=
  match response with
  | none => .ok []
  | some r =>
    if r = "" then .ok []
    else
      match extract_json_array r with
      | some (.arr (x :: xs)) => .ok (x :: xs)
      | _ => qualityFold (re_split_idea r) []

/-! ## `parse_by_headers` (llm.py)

The four header patterns are matched with `re.match(..., re.IGNORECASE)`
against each stripped line, in order:
`^#+\s*(.+)$`, `^([A-Z][A-Za-z\s]+):\s*$`, `^([A-Z][A-Za-z\s]+)\s*[-–—]\s*$`,
`^(\d+\.\s*[A-Z][A-Za-z\s]+)`.  The backtracking in each pattern is
deterministic because no character can belong to two adjacent tokens; the
matchers below implement the resulting case analyses. -/

/-- ASCII letter (the `[A-Z]` class under `IGNORECASE`). -/
def isAsciiAlpha (c : Char) : Bool :=
  ('A' ≤ c ∧ c ≤ 'Z') || ('a' ≤ c ∧ c ≤ 'z')

/-- The `[A-Za-z\s]` class. -/
def isAlphaWs (c : Char) : Bool := isAsciiAlpha c || isPyWs c

/-- Strip trailing regex whitespace. -/
def dropTrailWs (l : List Char) : List Char :=
  (l.reverse.dropWhile isPyWs).reverse

/-- `^#+\s*(.+)$` (returns the raw group). -/
def matchHeaderP1 (l : List Char) : Option String :=
  match l with
  | '#' :: _ =>
    let n := runLen (· = '#') l
    let r := l.drop n
    if r ≠ [] then
      match r.dropWhile isPyWs with
      | [] =>
        match r.getLast? with
        | some c => some (String.mk [c])
        | none => none
      | rest => some (String.mk rest)
    else if n ≥ 2 then some "#" else none
  | _ => none

/-- `^([A-Z][A-Za-z\s]+):\s*$` (returns the raw group). -/
def matchHeaderP2 (l : List Char) : Option String :=
  let t := dropTrailWs l
  match t.getLast? with
  | some ':' =>
    match t.dropLast with
    | c :: rest =>
      if isAsciiAlpha c ∧ rest ≠ [] ∧ rest.all isAlphaWs then
        some (String.mk (c :: rest))
      else none
    | [] => none
  | _ => none

/-- `^([A-Z][A-Za-z\s]+)\s*[-–—]\s*$` (returns the raw group). -/
def matchHeaderP3 (l : List Char) : Option String :=
  let t := dropTrailWs l
  match t.getLast? with
  | some d =>
    if d = '-' ∨ d = '–' ∨ d = '—' then
      match t.dropLast with
      | c :: rest =>
        if isAsciiAlpha c ∧ rest ≠ [] ∧ rest.all isAlphaWs then
          some (String.mk (c :: rest))
        else none
      | [] => none
    else none
  | none => none

/-- `^(\d+\.\s*[A-Z][A-Za-z\s]+)` (returns the raw group). -/
def matchHeaderP4 (l : List Char) : Option String :=
  let nd := runLen Char.isDigit l
  if nd ≥ 1 then
    match l.drop nd with
    | '.' :: r =>
      let w := r.takeWhile isPyWs
      match r.dropWhile isPyWs with
      | c :: rest =>
        if isAsciiAlpha c then
          let run := rest.takeWhile isAlphaWs
          if run ≠ [] then
            some (String.mk (l.take nd ++ '.' :: (w ++ c :: run)))
          else none
        else none
      | [] => none
    | _ => none
  else none

/-- First pattern matching the (stripped) line; the group is then
`.strip()`ed, as in the source. -/
def headerMatch (line : String) : Option String :=
  match matchHeaderP1 line.toList with
  | some g => some (pyStrip g)
  | none =>
    match matchHeaderP2 line.toList with
    | some g => some (pyStrip g)
    | none =>
      match matchHeaderP3 line.toList with
      | some g => some (pyStrip g)
      | none =>
        match matchHeaderP4 line.toList with
        | some g => some (pyStrip g)
        | none => none

/-- State of the `parse_by_headers` loop. -/
structure HdrState where
  sections : List (String × String)
  cur : Option String
  cc : List String

/-- Truthiness of `current_section` (a header title may be the empty string,
which Python treats as falsy). -/
def hdrTruthy : Option String → Bool
  | some s => s ≠ ""
  | none => false

/-- Append the pending section if both `current_section` and
`current_content` are truthy. -/
def hdrSave (st : HdrState) : List (String × String) :=
  if hdrTruthy st.cur ∧ st.cc ≠ [] then
    st.sections ++ [(st.cur.getD "", pyStrip (String.intercalate "\n" st.cc))]
  else st.sections

/-- One iteration of the `parse_by_headers` loop. -/
def hdrStep (st : HdrState) (l : String) : HdrState :=
  let line := pyStrip l
  if line = "" then st
  else
    match headerMatch line with
    | some title => { sections := hdrSave st, cur := some title, cc := [] }
    | none =>
      if hdrTruthy st.cur then { st with cc := st.cc ++ [line] } else st

/-- `parse_by_headers` of llm.py. -/
def parse_by_headers (text : String) : List (String × String) :=
  let stF := (pySplit text '\n').foldl hdrStep
    { sections := [], cur := none, cc := [] }
  hdrSave stF

/-! ## `parse_by_numbering` (llm.py) -/

/-- Generic `re.split` scan for a separator matcher that never matches empty
(fuel `length + 1` suffices because every match consumes at least one
character). -/
def reSplitGo (m : List Char → Option Nat) :
    Nat → List Char → List Char → List String → List String
  | 0, acc, l, ps => ps ++ [String.mk (acc ++ l)]
  | fuel + 1, acc, l, ps =>
    match l with
    | [] => ps ++ [String.mk acc]
    | c :: t =>
      match m (c :: t) with
      | some n => reSplitGo m fuel [] (List.drop n (c :: t)) (ps ++ [String.mk acc])
      | none => reSplitGo m fuel (acc ++ [c]) t ps

/-- Separator `\n\s*\d+\.\s*`. -/
def matchNumSep (l : List Char) : Option Nat :=
  match l with
  | '\n' :: t =>
    let w := t.takeWhile isPyWs
    let r := t.dropWhile isPyWs
    let nd := runLen Char.isDigit r
    if nd ≥ 1 then
      match r.drop nd with
      | '.' :: r2 => some (1 + w.length + nd + 1 + (r2.takeWhile isPyWs).length)
      | _ => none
    else none
  | _ => none

/-- Separator `\n\s*[-*•]\s*`. -/
def matchBulletSep (l : List Char) : Option Nat :=
  match l with
  | '\n' :: t =>
    let w := t.takeWhile isPyWs
    match t.dropWhile isPyWs with
    | c :: r2 =>
      if c = '-' ∨ c = '*' ∨ c = '•' then
        some (1 + w.length + 1 + (r2.takeWhile isPyWs).length)
      else none
    | [] => none
  | _ => none

/-- The numbered-section builder (`i` enumerates all pieces after the first,
including the ones skipped as empty). -/
def numberedBuild : Nat → List String → List (String × String) →
    List (String × String)
  | _, [], acc => acc
  | i, s :: rest, acc =>
    if pyStrip s ≠ "" then
      let lines := pySplit (pyStrip s) '\n'
      let title := pyStrip (lines.head?.getD "")
      let content :=
        if lines.length > 1 then
          pyStrip (String.intercalate "\n" (lines.drop 1))
        else ""
      let tc := if content = "" then (s!"Section {i}", title) else (title, content)
      numberedBuild (i + 1) rest (acc ++ [tc])
    else numberedBuild (i + 1) rest acc

/-- The bullet-section builder. -/
def bulletBuild : Nat → List String → List (String × String) →
    List (String × String)
  | _, [], acc => acc
  | i, s :: rest, acc =>
    if pyStrip s ≠ "" then
      bulletBuild (i + 1) rest (acc ++ [(s!"Section {i}", pyStrip s)])
    else bulletBuild (i + 1) rest acc

/-- `parse_by_numbering` of llm.py. -/
def parse_by_numbering (text : String) : List (String × String) :=
  let pieces := reSplitGo matchNumSep (text.length + 1) [] text.toList []
  let sections :=
    if pieces.length > 1 then numberedBuild 1 (pieces.drop 1) [] else []
  if sections = [] then
    let bpieces := reSplitGo matchBulletSep (text.length + 1) [] text.toList []
    if bpieces.length > 1 then bulletBuild 1 (bpieces.drop 1) [] else []
  else sections

/-! ## `parse_deep_dive_response` (llm.py) -/

/-- One deep-dive section (`{"title": ..., "content": ...}`; both values can
be arbitrary JSON values in the source, e.g. a non-string `content` from the
canonical tier). -/
structure DSec where
  title : Json
  content : Json
deriving DecidableEq, Repr

/-- The deep-dive document `{"sections": [...]}`. -/
structure DeepDive where
  sections : List DSec
deriving DecidableEq, Repr

/-- The canonical key → section-title map of the source. -/
def key_map : List (String × String) :=
  [("Product", "Product"),
   ("Timing", "Timing / Why Now"),
   ("Market", "Market Opportunity"),
   ("Moat", "Strategic Moat / IP / Differentiator"),
   ("Funding", "Business & Funding Snapshot"),
   ("Signal Score", "Signal Score"),
   ("GoNoGo", "Go / No-Go"),
   ("Summary", "Summary")]

/-- Content of one canonical section: `data.get(key, "")`, with the
Signal-Score mapping pretty-printed and `None` replaced by `""`. -/
def canonContent (kvs : List (String × Json)) (key : String) : Json :=
  let content := dictGetD kvs key (.str "")
  let content :=
    if key = "Signal Score" then
      match content with
      | .obj m => Json.str (dumpsIndent2 0 (.obj m))
      | _ => content
    else content
  if content = .null then .str "" else content

/-- The eight canonical sections built from a parsed JSON object. -/
def canonicalSections (kvs : List (String × Json)) : List DSec :=
  key_map.map fun p => ⟨.str p.2, canonContent kvs p.1⟩

/-- The message of the array-confusion fallback. -/
def arrayConfusionMsg : String :=
  "The AI returned a list of ideas instead of a deep dive analysis. Please try again."

/-- Tier 1 of `parse_deep_dive_response`: whole-text JSON; an array is the
known confusion failure mode, an object becomes the canonical sections; any
other value (or a parse error) falls through. -/
def deepDiveTier1 (r : String) : Option DeepDive :=
  match json_loads r with
  | some (.arr _) =>
    some ⟨[⟨.str "Error Generating Deep Dive", .str arrayConfusionMsg⟩]⟩
  | some (.obj kvs) => some ⟨canonicalSections kvs⟩
  | _ => none

/-- One element of the legacy `sections` array, with the defensive defaults
of the source. -/
def legacySection (i : Nat) (s : Json) : DSec :=
  match s with
  | .obj d =>
    ⟨dictGetD d "title" (.str s!"Section {i + 1}"),
     dictGetD d "content" (.str (pyStr (.obj d)))⟩
  | v => ⟨.str s!"Section {i + 1}", .str (pyStr v)⟩

/-- Tier 2 of `parse_deep_dive_response` (the legacy `{"sections": [...]}`
shape).  Note that tier 1 already returns on every JSON object, so this tier
can never fire; it is embedded faithfully nonetheless. -/
def deepDiveTier2 (r : String) : Option DeepDive :=
  match json_loads r with
  | some (.obj kvs) =>
    match dictLookup? kvs "sections" with
    | some (.arr l) => some ⟨l.enum.map fun p => legacySection p.1 p.2⟩
    | _ => none
  | _ => none

/-- `parse_deep_dive_response` of llm.py. -/
def parse_deep_dive_response (response : Option String) : DeepDive :=
  match response with
  | none => ⟨[]⟩
  | some r =>
    if r = "" then ⟨[]⟩
    else
      match deepDiveTier1 r with
      | some d => d
      | none =>
        match deepDiveTier2 r with
        | some d => d
        | none =>
          match parse_by_headers r with
          | [] =>
            match parse_by_numbering r with
            | [] => ⟨[⟨.str "Raw Analysis", .str ("```\n" ++ r ++ "\n```")⟩]⟩
            | ss => ⟨ss.map fun p => ⟨.str p.1, .str p.2⟩⟩
          | ss => ⟨ss.map fun p => ⟨.str p.1, .str p.2⟩⟩

/-! ## `parse_lens_insight_response` (llm.py) -/

/-- The array-flattening normalization: the value of `opportunities`,
`risks` or `recommendations`, when it is a list, becomes a newline-joined
bullet string; every other value passes through unchanged. -/
def lensFlatten (k : String) (v : Json) : Json :=
  if k = "opportunities" ∨ k = "risks" ∨ k = "recommendations" then
    match v with
    | .arr l => .str (String.intercalate "\n" (l.map fun item => "• " ++ pyStr item))
    | _ => v
  else v

/-- Apply `lensFlatten` to every member of a parsed object. -/
def lensProcess (kvs : List (String × Json)) : Json :=
  .obj (kvs.map fun p => (p.1, lensFlatten p.1 p.2))

/-- Body scan of the lens-extraction regex
`\{[^{}]*(?:\{[^{}]*\}[^{}]*)*\}` after its opening brace: alternating
brace-free runs and one-level-deep groups, ending at the closing brace. -/
def lensScanLoop : Nat → List Char → Option (List Char)
  | 0, _ => none
  | fuel + 1, l =>
    let a := l.takeWhile fun c => c ≠ lbrace ∧ c ≠ rbrace
    match l.dropWhile (fun c => c ≠ lbrace ∧ c ≠ rbrace) with
    | [] => none
    | c :: t =>
      if c = rbrace then some (a ++ [rbrace])
      else
        let b := t.takeWhile fun c => c ≠ lbrace ∧ c ≠ rbrace
        match t.dropWhile (fun c => c ≠ lbrace ∧ c ≠ rbrace) with
        | d :: t2 =>
          if d = rbrace then
            (lensScanLoop fuel t2).map fun m => a ++ lbrace :: (b ++ rbrace :: m)
          else none
        | [] => none

/-- Leftmost match of the lens-extraction regex. -/
def searchLensObj : List Char → Option (List Char)
  | [] => none
  | c :: t =>
    if c = lbrace then
      match lensScanLoop (t.length + 1) t with
      | some m => some (lbrace :: m)
      | none => searchLensObj t
    else searchLensObj t

/-- Tiers 3 and 4 of `parse_lens_insight_response`: header sections converted
to a dict (`title.lower().replace(" ", "_")` → content), else the raw
response under `raw_analysis`. -/
def lensHeaderTiers (r : String) : Json :=
  match parse_by_headers r with
  | [] => .obj [("raw_analysis", .str r)]
  | ss =>
    .obj (ss.foldl
      (fun acc p => dictSet acc ((asciiLower p.1).replace " " "_") (.str p.2)) [])

/-- `parse_lens_insight_response` of llm.py. -/
def parse_lens_insight_response (response : Option String) : Json :=
  match response with
  | none => .obj []
  | some r =>
    if r = "" then .obj []
    else
      match json_loads r with
      | some (.obj kvs) => lensProcess kvs
      | some (.arr (x :: _)) =>
        (match x with
         | .obj kvs => lensProcess kvs
         | v => v)
      | _ =>
        match searchLensObj r.toList with
        | some m =>
          match json_loads (String.mk m) with
          | some (.obj kvs) => lensProcess kvs
          | _ => lensHeaderTiers r
        | none => lensHeaderTiers r

/-! ## The collaborative document model
(`app/routers/collaboration.py`, `app/routers/ideas.py`)

A SQLAlchemy model instance is an attribute map, and `approve_change_proposal`
writes arbitrary attribute names onto it via `setattr`; an `Idea` row is
therefore modelled as an association list of attributes.  The `crud` module is
imported by the routers but absent from the source tree; its five helpers used
here are modelled from the spec (marked below). -/

/-- An `Idea` row: an attribute map (`id`, `user_id`, `title`, ... as JSON
values; a missing `user_id` attribute reads as `None`). -/
structure IdeaObj where
  attrs : List (String × Json)
deriving DecidableEq, Repr

/-- An `IdeaCollaborator` row. -/
structure CollabRec where
  idea_id : String
  user_id : String
  role : String
deriving DecidableEq, Repr

/-- An `IdeaChangeProposal` row. -/
structure ProposalRec where
  id : String
  idea_id : String
  proposer_id : String
  changes : List (String × Json)
  status : String
deriving DecidableEq, Repr

/-- A `Comment` row. -/
structure CommentRec where
  id : String
  idea_id : String
  user_id : String
  content : String
  parent_comment_id : Option String
deriving DecidableEq, Repr

/-- The persistent store (`next_id` models primary-key generation). -/
structure DB where
  ideas : List IdeaObj
  collaborators : List CollabRec
  proposals : List ProposalRec
  comments : List CommentRec
  next_id : Nat
deriving DecidableEq, Repr

/-- The router error outcomes (404 / 403 `HTTPException`s — distinguishable
typed failures). -/
inductive HErr where
  | notFound : HErr
  | forbidden : HErr
deriving DecidableEq, Repr

/-- `db.query(Idea).filter(Idea.id == idea_id).first()`. -/
def findIdea (db : DB) (iid : String) : Option IdeaObj :=
  db.ideas.find? fun i => dictGetD i.attrs "id" .null == .str iid

/-- Replace the first element satisfying `p`. -/
def updateFirst (p : α → Bool) (f : α → α) : List α → List α
  | [] => []
  | x :: t => if p x then f x :: t else x :: updateFirst p f t

/-- Commit a mutated idea row. -/
def saveIdea (db : DB) (iid : String) (i' : IdeaObj) : DB :=
  { db with
    ideas := updateFirst (fun i => dictGetD i.attrs "id" .null == .str iid)
      (fun _ => i') db.ideas }

/-- `get_idea_and_check_ownership` of collaboration.py. -/
def get_idea_and_check_ownership (db : DB) (iid uid : String) :
    Except HErr IdeaObj :=
  match findIdea db iid with
  | none => .error .notFound
  | some idea =>
    if dictGetD idea.attrs "user_id" .null == .str uid then .ok idea
    else .error .forbidden

/-- `get_idea_and_check_collaboration_permission` of collaboration.py: the
owner passes; otherwise the first collaborator row for (idea, user) must
exist and carry one of the allowed roles — anything else is forbidden. -/
def get_idea_and_check_collaboration_permission (db : DB) (iid uid : String)
    (allowed_roles : List String) : Except HErr IdeaObj :=
  match findIdea db iid with
  | none => .error .notFound
  | some idea =>
    if dictGetD idea.attrs "user_id" .null == .str uid then .ok idea
    else
      match db.collaborators.find? fun c => c.idea_id == iid && c.user_id == uid with
      | none => .error .forbidden
      | some c =>
        if allowed_roles.contains c.role then .ok idea else .error .forbidden

/-- Modelled from the spec: `crud.create_change_proposal` (crud.py is absent
from the source tree) — "creates a `pending` proposal; does not mutate the
idea". -/
def create_change_proposal (db : DB) (iid proposer : String)
    (changes : List (String × Json)) : DB × ProposalRec :=
  let prop : ProposalRec :=
    { id := toString db.next_id, idea_id := iid, proposer_id := proposer,
      changes := changes, status := "pending" }
  ({ db with proposals := db.proposals ++ [prop], next_id := db.next_id + 1 },
   prop)

/-- Modelled from the spec: `crud.create_comment` (crud.py is absent from the
source tree) — appends a comment record (idea, author, content, optional
parent); comments are append-only. -/
def create_comment (db : DB) (iid uid content : String)
    (parent : Option String) : DB × CommentRec :=
  let c : CommentRec :=
    { id := toString db.next_id, idea_id := iid, user_id := uid,
      content := content, parent_comment_id := parent }
  ({ db with comments := db.comments ++ [c], next_id := db.next_id + 1 }, c)

/-- Modelled from the spec: `crud.get_change_proposal` (crud.py is absent
from the source tree) — point lookup by id. -/
def get_change_proposal (db : DB) (pid : String) : Option ProposalRec :=
  db.proposals.find? fun p => p.id == pid

/-- Modelled from the spec: `crud.update_change_proposal_status` (crud.py is
absent from the source tree) — sets the proposal's `status` field
(`reviewed_at` is outside the model) and returns the updated row. -/
def update_change_proposal_status (db : DB) (pid status : String) :
    DB × Option ProposalRec :=
  match get_change_proposal db pid with
  | some p =>
    let p' := { p with status := status }
    let ps := updateFirst (fun q => q.id == pid) (fun _ => p') db.proposals
    ({ db with proposals := ps }, some p')
  | none => (db, none)

/-- `submit_change_proposal` of collaboration.py: collaboration check with
`allowed_roles=['editor']`, then create. -/
def submit_change_proposal (db : DB) (iid uid : String)
    (changes : List (String × Json)) : Except HErr (DB × ProposalRec) :=
  match get_idea_and_check_collaboration_permission db iid uid ["editor"] with
  | .error e => .error e
  | .ok _ => .ok (create_change_proposal db iid uid changes)

/-- `add_comment_to_idea` of collaboration.py: collaboration check with the
default `allowed_roles=['editor', 'viewer']`, then create. -/
def add_comment_to_idea (db : DB) (iid uid content : String)
    (parent : Option String) : Except HErr (DB × CommentRec) :=
  match get_idea_and_check_collaboration_permission db iid uid
      ["editor", "viewer"] with
  | .error e => .error e
  | .ok _ => .ok (create_comment db iid uid content parent)

/-- `for field, value in proposal.changes.items(): setattr(idea, field,
value)` — a generic attribute write, no allow-list. -/
def applyChanges (i : IdeaObj) (changes : List (String × Json)) : IdeaObj :=
  ⟨changes.foldl (fun a p => dictSet a p.1 p.2) i.attrs⟩

/-- `approve_change_proposal` of collaboration.py: look the proposal up,
check ownership of its idea, apply every change onto the idea, commit, set
the status to `approved`.  There is no check of the proposal's current
status. -/
def approve_change_proposal (db : DB) (pid uid : String) :
    Except HErr (DB × ProposalRec) :=
  match get_change_proposal db pid with
  | none => .error .notFound
  | some prop =>
    match get_idea_and_check_ownership db prop.idea_id uid with
    | .error e => .error e
    | .ok idea =>
      let db1 := saveIdea db prop.idea_id (applyChanges idea prop.changes)
      match update_change_proposal_status db1 pid "approved" with
      | (_, none) => .error .notFound
      | (db2, some p') => .ok (db2, p')

/-- `reject_change_proposal` of collaboration.py: as approve, but with no
idea mutation and status `rejected`; again no check of the current status. -/
def reject_change_proposal (db : DB) (pid uid : String) :
    Except HErr (DB × ProposalRec) :=
  match get_change_proposal db pid with
  | none => .error .notFound
  | some prop =>
    match get_idea_and_check_ownership db prop.idea_id uid with
    | .error e => .error e
    | .ok _ =>
      match update_change_proposal_status db pid "rejected" with
      | (_, none) => .error .notFound
      | (db2, some p') => .ok (db2, p')

/-! ## `update_idea` (app/routers/ideas.py) -/

/-- The ten optional body parameters of `update_idea`. -/
structure UpdateIdeaParams where
  title : Option String := none
  hook : Option String := none
  value : Option String := none
  evidence : Option String := none
  differentiator : Option String := none
  call_to_action : Option String := none
  score : Option Int := none
  mvp_effort : Option Int := none
  type : Option String := none
  status : Option String := none
deriving DecidableEq, Repr

/-- `if x is not None: idea.f = x` for a string parameter. -/
def setOptStr (a : List (String × Json)) (k : String) (o : Option String) :
    List (String × Json) :=
  match o with
  | some v => dictSet a k (.str v)
  | none => a

/-- `if x is not None: idea.f = x` for an int parameter. -/
def setOptInt (a : List (String × Json)) (k : String) (o : Option Int) :
    List (String × Json) :=
  match o with
  | some v => dictSet a k (.int v)
  | none => a

/-- The ten conditional field writes of `update_idea`, in source order. -/
def applyUpdateParams (a : List (String × Json)) (p : UpdateIdeaParams) :
    List (String × Json) :=
  let a := setOptStr a "title" p.title
  let a := setOptStr a "hook" p.hook
  let a := setOptStr a "value" p.value
  let a := setOptStr a "evidence" p.evidence
  let a := setOptStr a "differentiator" p.differentiator
  let a := setOptStr a "call_to_action" p.call_to_action
  let a := setOptInt a "score" p.score
  let a := setOptInt a "mvp_effort" p.mvp_effort
  let a := setOptStr a "type" p.type
  setOptStr a "status" p.status

/-- `update_idea` of ideas.py: 404 when absent; 403 when the idea has a
(truthy) owner other than the caller; otherwise write the provided fields and
adopt an ownerless idea for the caller. -/
def update_idea (db : DB) (iid : String) (p : UpdateIdeaParams) (uid : String) :
    Except HErr (DB × IdeaObj) :=
  match findIdea db iid with
  | none => .error .notFound
  | some idea =>
    if jsonTruthy (dictGetD idea.attrs "user_id" .null) ∧
        dictGetD idea.attrs "user_id" .null ≠ .str uid then .error .forbidden
    else
      let a1 := applyUpdateParams idea.attrs p
      let a2 :=
        if ¬ jsonTruthy (dictGetD a1 "user_id" .null) then
          dictSet a1 "user_id" (.str uid)
        else a1
      .ok (saveIdea db iid ⟨a2⟩, ⟨a2⟩)

/-! ## Derived predicates and concrete inputs used in the theorems below -/

/-- The quality filter of `parse_idea_response`, as a predicate on one output
record: the record is an object whose `score` (default 0) compares `≥ 8` and
whose `mvp_effort` (default 10) compares `≤ 4`, both without a `TypeError`. -/
def passesQualityFilter : Json → Bool
  | .obj d =>
    match pyGeInt (dictGetD d "score" (.int 0)) 8,
        pyLeInt (dictGetD d "mvp_effort" (.int 10)) 4 with
    | .ok true, .ok true => true
    | _, _ => false
  | _ => false

/-- Whether the whole-text JSON-array tier of `parse_idea_response` fires
(i.e. `extract_json_array` yields a non-empty list, which the source returns
verbatim). -/
def ideaJsonTierHit (r : String) : Bool :=
  match extract_json_array r with
  | some (.arr (_ :: _)) => true
  | _ => false

/-- Witness store for the authorization theorems: idea `i1` owned by `alice`,
with `bob` a `viewer` collaborator. -/
def dbW8 : DB :=
  { ideas := [⟨[("id", .str "i1"), ("user_id", .str "alice"),
      ("title", .str "T")]⟩],
    collaborators := [⟨"i1", "bob", "viewer"⟩],
    proposals := [], comments := [], next_id := 0 }

/-- Counterexample store for the proposal-lifecycle theorems: idea `i1` owned
by `alice`, and a proposal `p1` that is already `rejected`. -/
def dbC9 : DB :=
  { ideas := [⟨[("id", .str "i1"), ("user_id", .str "alice"),
      ("title", .str "Old")]⟩],
    collaborators := [],
    proposals := [⟨"p1", "i1", "bob", [("title", .str "New")], "rejected"⟩],
    comments := [], next_id := 5 }

/-- The store after `alice` approves the rejected proposal `p1` of `dbC9`. -/
def dbC9' : DB :=
  { ideas := [⟨[("id", .str "i1"), ("user_id", .str "alice"),
      ("title", .str "New")]⟩],
    collaborators := [],
    proposals := [⟨"p1", "i1", "bob", [("title", .str "New")], "approved"⟩],
    comments := [], next_id := 5 }

/-- The proposal returned by that approval. -/
def pC9' : ProposalRec :=
  ⟨"p1", "i1", "bob", [("title", .str "New")], "approved"⟩

/-- Witness store for `update_idea`: one ownerless (system) idea `i2`. -/
def dbW10 : DB :=
  { ideas := [⟨[("id", .str "i2"), ("user_id", .null), ("title", .str "Old"),
      ("deep_dive", .obj [])]⟩],
    collaborators := [], proposals := [], comments := [], next_id := 0 }

/-- Witness parameters for `update_idea`: only `title` provided. -/
def pW10 : UpdateIdeaParams := { title := some "New" }

/-- The idea row after `u1` runs `update_idea` on `dbW10`: title written,
system idea adopted, everything else untouched. -/
def iW10' : IdeaObj :=
  ⟨[("id", .str "i2"), ("user_id", .str "u1"), ("title", .str "New"),
    ("deep_dive", .obj [])]⟩

/-- The store after that `update_idea` call. -/
def dbW10' : DB :=
  { ideas := [iW10'], collaborators := [], proposals := [], comments := [],
    next_id := 0 }

/-! # Theorems -/

/-- C1 (code bug): the claim says both parsers always return a structure
without raising, and that empty or absent input yields an empty list
(resp. empty sections).  The empty/absent clauses hold, and
`parse_deep_dive_response` is total; but `parse_idea_response` is not
exception-free: on the input `'\x7b"title":"T","score":"high"\x7d'` the
free-text fallback produces a record whose `score` is the string `"high"`,
and the uncaught quality-filter comparison `idea.get('score', 0) >= 8`
raises `TypeError`.  The final conjunct evaluates the embedded code at that
failing input. -/
theorem C1_parse_never_throws :
    parse_idea_response none = .ok [] ∧
    parse_idea_response (some "") = .ok [] ∧
    parse_deep_dive_response none = ⟨[]⟩ ∧
    parse_deep_dive_response (some "") = ⟨[]⟩ ∧
    (∀ s : Option String, ∃ d : DeepDive, parse_deep_dive_response s = d) ∧
    parse_idea_response (some "\x7b\"title\":\"T\",\"score\":\"high\"\x7d") =
      .error .typeError :=
  ⟨rfl, rfl, rfl, rfl, fun _ => ⟨_, rfl⟩, by rfl⟩

/-- C2 (counterexample): the claim says every record returned by
`parse_idea_response` satisfies the quality filter, including records parsed
from a well-formed whole-text JSON array, and that a well-formed record with
score 7 is excluded.  In the source the filter is applied only on the
free-text fallback path; a JSON array found by `extract_json_array` is
returned verbatim, so the score-7 record below is included. -/
theorem C2_quality_filter_counterexample :
    parse_idea_response
        (some "[\x7b\"title\":\"T\",\"score\":7,\"mvp_effort\":3\x7d]") =
      .ok [Json.obj [("title", .str "T"), ("score", .int 7),
        ("mvp_effort", .int 3)]] ∧
    passesQualityFilter
      (Json.obj [("title", .str "T"), ("score", .int 7),
        ("mvp_effort", .int 3)]) = false :=
  ⟨by rfl, by rfl⟩

/-- Soundness of the fallback loop: every record it appends passed the
quality filter. -/
theorem qualityFold_sound :
    ∀ (cs : List String) (acc l : List Json),
      (∀ r ∈ acc, passesQualityFilter r = true) →
      qualityFold cs acc = .ok l →
      ∀ r ∈ l, passesQualityFilter r = true := by
  intro cs
  induction cs with
  | nil =>
    intro acc l hacc h
    simp only [qualityFold, Except.ok.injEq] at h
    subst h
    exact hacc
  | cons c cs ih =>
    intro acc l hacc h
    cases hp : parse_single_idea c with
    | none =>
      simp only [qualityFold, hp] at h
      exact ih acc l hacc h
    | some idea =>
      simp only [qualityFold, hp] at h
      cases hg : pyGeInt (dictGetD idea "score" (.int 0)) 8 with
      | error e => simp only [hg] at h; cases h
      | ok b =>
        simp only [hg] at h
        cases b with
        | false => exact ih acc l hacc h
        | true =>
          cases hl : pyLeInt (dictGetD idea "mvp_effort" (.int 10)) 4 with
          | error e => simp only [hl] at h; cases h
          | ok b2 =>
            simp only [hl] at h
            cases b2 with
            | false => exact ih acc l hacc h
            | true =>
              refine ih _ l ?_ h
              intro r hr
              rcases List.mem_append.mp hr with h1 | h2
              · exact hacc r h1
              · rcases List.mem_singleton.mp h2 with rfl
                simp only [passesQualityFilter, hg, hl]

/-- C2 (amended): every record produced by the free-text fallback path of
`parse_idea_response` satisfies the quality filter (score ≥ 8 and
mvp_effort ≤ 4); records returned by the whole-text JSON-array tier bypass
the filter, so the amended guarantee is conditional on that tier not
firing. -/
theorem C2_quality_filter_amended :
    ∀ (s : String) (l : List Json),
      ideaJsonTierHit s = false →
      parse_idea_response (some s) = .ok l →
      ∀ r ∈ l, passesQualityFilter r = true := by
  intro s l htier h
  by_cases hs : s = ""
  · subst hs
    have he : parse_idea_response (some "") = .ok [] := rfl
    rw [he] at h
    cases h
    intro r hr
    cases hr
  · simp only [parse_idea_response, if_neg hs] at h
    unfold ideaJsonTierHit at htier
    cases he : extract_json_array s with
    | none =>
      rw [he] at h
      exact qualityFold_sound _ _ _ (by intro r hr; cases hr) h
    | some j =>
      rw [he] at h
      rw [he] at htier
      cases j with
      | arr a =>
        cases a with
        | nil => exact qualityFold_sound _ _ _ (by intro r hr; cases hr) h
        | cons x xs => exact absurd htier (by simp)
      | null => exact qualityFold_sound _ _ _ (by intro r hr; cases hr) h
      | bool b => exact qualityFold_sound _ _ _ (by intro r hr; cases hr) h
      | int n => exact qualityFold_sound _ _ _ (by intro r hr; cases hr) h
      | str s2 => exact qualityFold_sound _ _ _ (by intro r hr; cases hr) h
      | obj kvs => exact qualityFold_sound _ _ _ (by intro r hr; cases hr) h

/-- Witness for the amended C2: a concrete free-text response whose one idea
(score 9/10, MVP 3/10) is retained, and the retained record passes the
filter. -/
theorem C2_quality_filter_amended_witness :
    ideaJsonTierHit "Cool Title\nScore: 9/10\nMVP: 3/10" = false ∧
    parse_idea_response (some "Cool Title\nScore: 9/10\nMVP: 3/10") =
      .ok [Json.obj [("title", .str "Cool Title"), ("hook", .str ""),
        ("value", .str ""), ("evidence", .str ""),
        ("differentiator", .str ""), ("call_to_action", .str ""),
        ("score", .int 9), ("mvp_effort", .int 3), ("type", .null)]] ∧
    (∀ r ∈ [Json.obj [("title", .str "Cool Title"), ("hook", .str ""),
        ("value", .str ""), ("evidence", .str ""),
        ("differentiator", .str ""), ("call_to_action", .str ""),
        ("score", .int 9), ("mvp_effort", .int 3), ("type", .null)]],
      passesQualityFilter r = true) :=
  ⟨by rfl, by rfl,
   C2_quality_filter_amended "Cool Title\nScore: 9/10\nMVP: 3/10" _ (by rfl)
     (by rfl)⟩

/-- C5: whenever the whole text parses as a JSON array, the deep-dive parser
returns exactly the single "Error Generating Deep Dive" section with the
explanatory message — no 8-section structure, no fall-through, no
exception. -/
theorem C5_array_confusion :
    ∀ (s : String) (l : List Json),
      json_loads s = some (.arr l) →
      parse_deep_dive_response (some s) =
        ⟨[⟨.str "Error Generating Deep Dive", .str arrayConfusionMsg⟩]⟩ := by
  intro s l hj
  have hs : ¬ s = "" := by
    intro h
    subst h
    exact Option.noConfusion ((rfl : json_loads "" = none) ▸ hj)
  simp only [parse_deep_dive_response, if_neg hs]
  have h1 : deepDiveTier1 s =
      some ⟨[⟨.str "Error Generating Deep Dive", .str arrayConfusionMsg⟩]⟩ := by
    simp only [deepDiveTier1, hj]
  rw [h1]

/-- Witness for C5 at the spec's own example input `'[\x7b"title":"a"\x7d]'`. -/
theorem C5_array_confusion_witness :
    parse_deep_dive_response (some "[\x7b\"title\":\"a\"\x7d]") =
      ⟨[⟨.str "Error Generating Deep Dive", .str arrayConfusionMsg⟩]⟩ :=
  C5_array_confusion "[\x7b\"title\":\"a\"\x7d]"
    [.obj [("title", .str "a")]] (by rfl)

/-- C6 (counterexample): the claim says the terminal tier wraps the verbatim
input as the content of the single "Raw Analysis" section; the source
actually wraps the text in a fenced code block, so the content differs from
the input. -/
theorem C6_terminal_fallback_counterexample :
    parse_deep_dive_response
        (some "just some unstructured prose with no headers or numbers") =
      ⟨[⟨.str "Raw Analysis",
        .str "```\njust some unstructured prose with no headers or numbers\n```"⟩]⟩ ∧
    "```\njust some unstructured prose with no headers or numbers\n```" ≠
      "just some unstructured prose with no headers or numbers" :=
  ⟨by rfl, by decide⟩

/-- C6 (amended): on input where no JSON parses and neither the header nor
the numbering/bullet tier finds sections, the parser returns exactly one
section titled "Raw Analysis" whose content is the input text wrapped in a
fenced code block. -/
theorem C6_terminal_fallback_amended :
    ∀ (s : String), s ≠ "" → json_loads s = none →
      parse_by_headers s = [] → parse_by_numbering s = [] →
      parse_deep_dive_response (some s) =
        ⟨[⟨.str "Raw Analysis", .str ("```\n" ++ s ++ "\n```")⟩]⟩ := by
  intro s hs hj hh hn
  simp only [parse_deep_dive_response, if_neg hs]
  have h1 : deepDiveTier1 s = none := by simp only [deepDiveTier1, hj]
  have h2 : deepDiveTier2 s = none := by simp only [deepDiveTier2, hj]
  rw [h1, h2, hh, hn]

/-- Witness for the amended C6 at the spec's own prose input. -/
theorem C6_terminal_fallback_amended_witness :
    parse_deep_dive_response
        (some "just some unstructured prose with no headers or numbers") =
      ⟨[⟨.str "Raw Analysis",
        .str ("```\n" ++ "just some unstructured prose with no headers or numbers" ++ "\n```")⟩]⟩ :=
  C6_terminal_fallback_amended
    "just some unstructured prose with no headers or numbers"
    (by decide) (by rfl) (by rfl) (by rfl)

/-- C3: every input that parses as a JSON object yields the canonical
eight-section structure: exactly eight sections whose titles are the eight
canonical titles in fixed order regardless of key order in the source; a
canonical key absent from the object yields a section with empty-string
content; and a Signal Score value that is itself a mapping is pretty-printed
(`json.dumps(..., indent=2)`) as the section content. -/
theorem C3_canonical_structure :
    ∀ (s : String) (kvs : List (String × Json)),
      json_loads s = some (.obj kvs) →
      parse_deep_dive_response (some s) = ⟨canonicalSections kvs⟩ ∧
      (canonicalSections kvs).length = 8 ∧
      (canonicalSections kvs).map DSec.title =
        [.str "Product", .str "Timing / Why Now", .str "Market Opportunity",
         .str "Strategic Moat / IP / Differentiator",
         .str "Business & Funding Snapshot", .str "Signal Score",
         .str "Go / No-Go", .str "Summary"] ∧
      (∀ p ∈ key_map, dictLookup? kvs p.1 = none →
        canonContent kvs p.1 = .str "") ∧
      (∀ m, dictLookup? kvs "Signal Score" = some (.obj m) →
        canonContent kvs "Signal Score" = .str (dumpsIndent2 0 (.obj m))) := by
  intro s kvs hj
  have hs : ¬ s = "" := fun h => by
    subst h
    exact Option.noConfusion ((rfl : json_loads "" = none) ▸ hj)
  refine ⟨?_, by simp [canonicalSections, key_map],
    by simp [canonicalSections, key_map], ?_, ?_⟩
  · simp only [parse_deep_dive_response, if_neg hs]
    have h1 : deepDiveTier1 s = some ⟨canonicalSections kvs⟩ := by
      simp only [deepDiveTier1, hj]
    rw [h1]
  · intro p hp hnone
    simp only [key_map, List.mem_cons, List.not_mem_nil, or_false] at hp
    rcases hp with rfl | rfl | rfl | rfl | rfl | rfl | rfl | rfl <;>
      simp [canonContent, dictGetD, hnone]
  · intro m hm
    simp [canonContent, dictGetD, hm]

/-- Witness for C3 at the spec's own example `'\x7b"Product":"x","Timing":"y"\x7d'`:
the result is the canonical structure, the absent key `Market` yields
empty-string content, and the eight canonical titles appear in order. -/
theorem C3_canonical_structure_witness :
    parse_deep_dive_response (some "\x7b\"Product\":\"x\",\"Timing\":\"y\"\x7d") =
      ⟨canonicalSections [("Product", .str "x"), ("Timing", .str "y")]⟩ ∧
    canonContent [("Product", .str "x"), ("Timing", .str "y")] "Market" =
      .str "" ∧
    (canonicalSections [("Product", .str "x"), ("Timing", .str "y")]).map
        DSec.title =
      [.str "Product", .str "Timing / Why Now", .str "Market Opportunity",
       .str "Strategic Moat / IP / Differentiator",
       .str "Business & Funding Snapshot", .str "Signal Score",
       .str "Go / No-Go", .str "Summary"] := by
  obtain ⟨h1, _, h3, h4, _⟩ :=
    C3_canonical_structure "\x7b\"Product\":\"x\",\"Timing\":\"y\"\x7d"
      [("Product", .str "x"), ("Timing", .str "y")] (by rfl)
  exact ⟨h1, h4 ("Market", "Market Opportunity") (by simp [key_map]) (by rfl), h3⟩

/-- C4 (counterexample): the claim says a valid JSON object with a top-level
`sections` array is returned as those sections (the legacy shape).  In the
source the canonical tier accepts every JSON object first, so the legacy
input below yields the eight canonical sections (all with empty content),
not the one legacy section. -/
theorem C4_legacy_tier_counterexample :
    parse_deep_dive_response
        (some "\x7b\"sections\":[\x7b\"title\":\"a\",\"content\":\"b\"\x7d]\x7d") =
      ⟨canonicalSections
        [("sections", .arr [.obj [("title", .str "a"), ("content", .str "b")]])]⟩ ∧
    (parse_deep_dive_response
        (some "\x7b\"sections\":[\x7b\"title\":\"a\",\"content\":\"b\"\x7d]\x7d")).sections.length = 8 ∧
    parse_deep_dive_response
        (some "\x7b\"sections\":[\x7b\"title\":\"a\",\"content\":\"b\"\x7d]\x7d") ≠
      ⟨[⟨.str "a", .str "b"⟩]⟩ :=
  ⟨by rfl, by rfl, by decide⟩

/-- C4 (amended): the legacy tier is dead code — an input with a top-level
`sections` array is still a JSON object, so the canonical tier consumes it
and returns the eight canonical sections built from the object; in
particular the whole-text JSON result still wins over header-based parsing,
but the legacy sections themselves are never returned. -/
theorem C4_legacy_shape_amended :
    ∀ (s : String) (kvs : List (String × Json)) (l : List Json),
      json_loads s = some (.obj kvs) →
      dictLookup? kvs "sections" = some (.arr l) →
      parse_deep_dive_response (some s) = ⟨canonicalSections kvs⟩ := by
  intro s kvs l hj _
  have hs : ¬ s = "" := fun h => by
    subst h
    exact Option.noConfusion ((rfl : json_loads "" = none) ▸ hj)
  simp only [parse_deep_dive_response, if_neg hs]
  have h1 : deepDiveTier1 s = some ⟨canonicalSections kvs⟩ := by
    simp only [deepDiveTier1, hj]
  rw [h1]

/-- Witness for the amended C4 at a legacy-shaped input that also contains a
markdown-header line inside its content. -/
theorem C4_legacy_shape_amended_witness :
    parse_deep_dive_response
        (some "\x7b\"sections\":[\x7b\"title\":\"a\",\"content\":\"# b\"\x7d]\x7d") =
      ⟨canonicalSections
        [("sections", .arr [.obj [("title", .str "a"), ("content", .str "# b")]])]⟩ :=
  C4_legacy_shape_amended
    "\x7b\"sections\":[\x7b\"title\":\"a\",\"content\":\"# b\"\x7d]\x7d"
    [("sections", .arr [.obj [("title", .str "a"), ("content", .str "# b")]])]
    [.obj [("title", .str "a"), ("content", .str "# b")]] (by rfl) (by rfl)

/-- C7: a lens-insight response parsing as a JSON object (or as an array
whose first element is an object) has each of `opportunities`, `risks`,
`recommendations` with an array value flattened to a newline-joined
bullet-point string, while every other field (other key, or non-array value)
passes through unchanged. -/
theorem C7_lens_array_flattening :
    ∀ (s : String) (kvs : List (String × Json)),
      (json_loads s = some (.obj kvs) →
        parse_lens_insight_response (some s) = lensProcess kvs) ∧
      (∀ rest, json_loads s = some (.arr (Json.obj kvs :: rest)) →
        parse_lens_insight_response (some s) = lensProcess kvs) ∧
      (lensProcess kvs = .obj (kvs.map fun p => (p.1, lensFlatten p.1 p.2))) ∧
      (∀ k l, (k = "opportunities" ∨ k = "risks" ∨ k = "recommendations") →
        lensFlatten k (.arr l) =
          .str (String.intercalate "\n" (l.map fun item => "• " ++ pyStr item))) ∧
      (∀ k v, ¬(k = "opportunities" ∨ k = "risks" ∨ k = "recommendations") →
        lensFlatten k v = v) ∧
      (∀ k v, (∀ l, v ≠ .arr l) → lensFlatten k v = v) := by
  intro s kvs
  refine ⟨?_, ?_, rfl, ?_, ?_, ?_⟩
  · intro hj
    have hs : ¬ s = "" := fun h => by
      subst h
      exact Option.noConfusion ((rfl : json_loads "" = none) ▸ hj)
    simp only [parse_lens_insight_response, if_neg hs, hj, lensProcess]
  · intro rest hj
    have hs : ¬ s = "" := fun h => by
      subst h
      exact Option.noConfusion ((rfl : json_loads "" = none) ▸ hj)
    simp only [parse_lens_insight_response, if_neg hs, hj, lensProcess]
  · intro k l hk
    rcases hk with rfl | rfl | rfl <;> simp [lensFlatten]
  · intro k v hk
    simp [lensFlatten, hk]
  · intro k v hv
    cases v with
    | arr l => exact absurd rfl (hv l)
    | null => simp [lensFlatten]
    | bool b => simp [lensFlatten]
    | int n => simp [lensFlatten]
    | str s2 => simp [lensFlatten]
    | obj o => simp [lensFlatten]

/-- Witness for C7 at the spec's own example: `risks: ["A", "B"]` becomes the
bullet string, the other field is unchanged. -/
theorem C7_lens_array_flattening_witness :
    parse_lens_insight_response
        (some "\x7b\"risks\":[\"A\",\"B\"],\"other\":1\x7d") =
      .obj [("risks", .str "• A\n• B"), ("other", .int 1)] := by
  have h := (C7_lens_array_flattening "\x7b\"risks\":[\"A\",\"B\"],\"other\":1\x7d"
    [("risks", .arr [.str "A", .str "B"]), ("other", .int 1)]).1 (by rfl)
  rw [h]
  rfl

/-- C8: a caller who is neither the idea's owner nor recorded as a
collaborator with a qualifying role (editor for proposals; editor or viewer
for comments) gets the distinguishable forbidden outcome from both
submit-proposal and add-comment, and no proposal or comment is created (in
this state-threading embedding an `.error` result returns no new store). -/
theorem C8_authorization_fail_closed :
    ∀ (db : DB) (iid uid : String) (changes : List (String × Json))
      (content : String) (parent : Option String) (idea : IdeaObj),
      findIdea db iid = some idea →
      dictGetD idea.attrs "user_id" .null ≠ .str uid →
      ((∀ c ∈ db.collaborators, c.idea_id = iid → c.user_id = uid →
          c.role ≠ "editor") →
        submit_change_proposal db iid uid changes = .error .forbidden) ∧
      ((∀ c ∈ db.collaborators, c.idea_id = iid → c.user_id = uid →
          c.role ≠ "editor" ∧ c.role ≠ "viewer") →
        add_comment_to_idea db iid uid content parent = .error .forbidden) := by
  intro db iid uid changes content parent idea hfind howner
  have hbeq : (dictGetD idea.attrs "user_id" .null == .str uid) = false := by
    simp only [beq_eq_false_iff_ne, ne_eq]
    exact howner
  constructor
  · intro hroles
    cases hf : db.collaborators.find?
        (fun c => c.idea_id == iid && c.user_id == uid) with
    | none =>
      simp [submit_change_proposal,
        get_idea_and_check_collaboration_permission, hfind, hbeq, hf]
    | some c =>
      have hmem := List.mem_of_find?_eq_some hf
      have hpred := List.find?_some hf
      simp only [Bool.and_eq_true, beq_iff_eq] at hpred
      have hrole := hroles c hmem hpred.1 hpred.2
      have hcont : (["editor"].contains c.role) = false := by
        simp [hrole]
      simp [submit_change_proposal,
        get_idea_and_check_collaboration_permission, hfind, hbeq, hf, hcont,
        hrole]
  · intro hroles
    cases hf : db.collaborators.find?
        (fun c => c.idea_id == iid && c.user_id == uid) with
    | none =>
      simp [add_comment_to_idea,
        get_idea_and_check_collaboration_permission, hfind, hbeq, hf]
    | some c =>
      have hmem := List.mem_of_find?_eq_some hf
      have hpred := List.find?_some hf
      simp only [Bool.and_eq_true, beq_iff_eq] at hpred
      have hrole := hroles c hmem hpred.1 hpred.2
      have hcont : (["editor", "viewer"].contains c.role) = false := by
        simp [hrole.1, hrole.2]
      simp [add_comment_to_idea,
        get_idea_and_check_collaboration_permission, hfind, hbeq, hf, hcont,
        hrole.1, hrole.2]

/-- Witness for C8: in `dbW8`, `bob` (a viewer, not an editor) cannot submit
a proposal, and `carol` (no collaborator record at all) cannot comment. -/
theorem C8_authorization_fail_closed_witness :
    submit_change_proposal dbW8 "i1" "bob" [("title", .str "X")] =
      .error .forbidden ∧
    add_comment_to_idea dbW8 "i1" "carol" "hi" none = .error .forbidden :=
  ⟨(C8_authorization_fail_closed dbW8 "i1" "bob" [("title", .str "X")] "hi"
      none ⟨[("id", .str "i1"), ("user_id", .str "alice"), ("title", .str "T")]⟩
      (by rfl) (by decide)).1 (by decide),
   (C8_authorization_fail_closed dbW8 "i1" "carol" [("title", .str "X")] "hi"
      none ⟨[("id", .str "i1"), ("user_id", .str "alice"), ("title", .str "T")]⟩
      (by rfl) (by decide)).2 (by decide)⟩

/-- C9 (counterexample): the claim says approve/reject cannot be applied to a
non-pending proposal.  In `dbC9` the proposal `p1` is already `rejected`,
yet the owner's approve succeeds, flips it to `approved`, and applies the
changes onto the idea. -/
theorem C9_terminal_status_counterexample :
    (get_change_proposal dbC9 "p1").map ProposalRec.status = some "rejected" ∧
    approve_change_proposal dbC9 "p1" "alice" = .ok (dbC9', pC9') ∧
    pC9'.status = "approved" ∧
    findIdea dbC9' "i1" =
      some ⟨[("id", .str "i1"), ("user_id", .str "alice"),
        ("title", .str "New")]⟩ :=
  ⟨by rfl, by rfl, by rfl, by rfl⟩

/-- C9 (amended): approve (owner-only) sets the proposal's status to
`approved` and applies every key of `changes` onto the idea attribute by
attribute; reject (owner-only) sets `rejected` and mutates no idea.  Neither
operation checks the proposal's current status, so they apply to non-pending
proposals as well (last write wins) — terminality is not enforced. -/
theorem C9_proposal_transitions_amended :
    ∀ (db : DB) (pid uid : String) (db' : DB) (p' : ProposalRec),
      (approve_change_proposal db pid uid = .ok (db', p') →
        ∃ p idea, get_change_proposal db pid = some p ∧
          findIdea db p.idea_id = some idea ∧
          dictGetD idea.attrs "user_id" .null = .str uid ∧
          p' = { p with status := "approved" } ∧
          db'.ideas = updateFirst
            (fun i => dictGetD i.attrs "id" .null == .str p.idea_id)
            (fun _ => applyChanges idea p.changes) db.ideas ∧
          db'.proposals = updateFirst (fun q => q.id == pid)
            (fun _ => { p with status := "approved" }) db.proposals ∧
          db'.collaborators = db.collaborators ∧ db'.comments = db.comments) ∧
      (reject_change_proposal db pid uid = .ok (db', p') →
        ∃ p idea, get_change_proposal db pid = some p ∧
          findIdea db p.idea_id = some idea ∧
          dictGetD idea.attrs "user_id" .null = .str uid ∧
          p' = { p with status := "rejected" } ∧
          db'.ideas = db.ideas ∧
          db'.proposals = updateFirst (fun q => q.id == pid)
            (fun _ => { p with status := "rejected" }) db.proposals ∧
          db'.collaborators = db.collaborators ∧ db'.comments = db.comments) := by
  intro db pid uid db' p'
  constructor
  · intro h
    unfold approve_change_proposal at h
    cases hp : get_change_proposal db pid with
    | none => rw [hp] at h; cases h
    | some p =>
      rw [hp] at h
      simp only at h
      cases hq : get_idea_and_check_ownership db p.idea_id uid with
      | error e => rw [hq] at h; cases h
      | ok idea =>
        rw [hq] at h
        simp only at h
        unfold get_idea_and_check_ownership at hq
        cases hf : findIdea db p.idea_id with
        | none => rw [hf] at hq; cases hq
        | some idea2 =>
          rw [hf] at hq
          simp only at hq
          by_cases hown : (dictGetD idea2.attrs "user_id" .null == .str uid) = true
          · rw [if_pos hown] at hq
            injection hq with hq
            subst hq
            have hown' : dictGetD idea2.attrs "user_id" .null = .str uid :=
              eq_of_beq hown
            have hp1 : get_change_proposal
                (saveIdea db p.idea_id (applyChanges idea2 p.changes)) pid =
                some p := hp
            simp only [update_change_proposal_status, hp1] at h
            injection h with h
            injection h with h1 h2
            subst h1
            subst h2
            exact ⟨p, idea2, rfl, hf, hown', rfl, rfl, rfl, rfl, rfl⟩
          · rw [if_neg hown] at hq; cases hq
  · intro h
    unfold reject_change_proposal at h
    cases hp : get_change_proposal db pid with
    | none => rw [hp] at h; cases h
    | some p =>
      rw [hp] at h
      simp only at h
      cases hq : get_idea_and_check_ownership db p.idea_id uid with
      | error e => rw [hq] at h; cases h
      | ok idea =>
        rw [hq] at h
        simp only at h
        unfold get_idea_and_check_ownership at hq
        cases hf : findIdea db p.idea_id with
        | none => rw [hf] at hq; cases hq
        | some idea2 =>
          rw [hf] at hq
          simp only at hq
          by_cases hown : (dictGetD idea2.attrs "user_id" .null == .str uid) = true
          · rw [if_pos hown] at hq
            injection hq with hq
            subst hq
            have hown' : dictGetD idea2.attrs "user_id" .null = .str uid :=
              eq_of_beq hown
            simp only [update_change_proposal_status, hp] at h
            injection h with h
            injection h with h1 h2
            subst h1
            subst h2
            exact ⟨p, idea2, rfl, hf, hown', rfl, rfl, rfl, rfl, rfl⟩
          · rw [if_neg hown] at hq; cases hq

/-- Witness for the amended C9: approving the already-rejected proposal of
`dbC9` succeeds and yields the `approved` status. -/
theorem C9_proposal_transitions_amended_witness :
    approve_change_proposal dbC9 "p1" "alice" = .ok (dbC9', pC9') ∧
    pC9'.status = "approved" := by
  obtain ⟨p, idea, hp, -, -, hps, -, -, -, -⟩ :=
    (C9_proposal_transitions_amended dbC9 "p1" "alice" dbC9' pC9').1 (by rfl)
  have hp0 : get_change_proposal dbC9 "p1" =
      some ⟨"p1", "i1", "bob", [("title", Json.str "New")], "rejected"⟩ := rfl
  rw [hp0] at hp
  injection hp with hp
  subst hp
  exact ⟨by rfl, by rw [hps]⟩

/-- Reading back the key just written. -/
theorem dictLookup?_dictSet_same (d : List (String × Json)) (k : String)
    (v : Json) : dictLookup? (dictSet d k v) k = some v := by
  induction d with
  | nil => simp [dictSet, dictLookup?]
  | cons p t ih =>
    by_cases h : p.1 = k <;> simp_all [dictSet, dictLookup?, List.find?]

/-- Writing one key does not disturb another. -/
theorem dictLookup?_dictSet_ne {d : List (String × Json)} {k k' : String}
    {v : Json} (h : k' ≠ k) :
    dictLookup? (dictSet d k v) k' = dictLookup? d k' := by
  have hkk : (k == k') = false := by
    simp only [beq_eq_false_iff_ne, ne_eq]
    exact fun hh => h hh.symm
  induction d with
  | nil => simp [dictSet, dictLookup?, List.find?, hkk]
  | cons p t ih =>
    by_cases hpk : p.1 = k
    · have hb : (p.1 == k) = true := by simp [hpk]
      simp [dictSet, hb, dictLookup?, List.find?, hpk, hkk]
    · have hb : (p.1 == k) = false := by simp [hpk]
      simp only [dictSet, hb, Bool.false_eq_true, if_false]
      cases hc : p.1 == k' with
      | true => simp [dictLookup?, List.find?, hc]
      | false =>
        simp only [dictLookup?, List.find?, hc] at ih ⊢
        exact ih

/-- The conditional string write of `update_idea`, read at its own key. -/
theorem lookup_setOptStr_same (a : List (String × Json)) (k : String)
    (o : Option String) :
    dictLookup? (setOptStr a k o) k =
      match o with
      | some v => some (.str v)
      | none => dictLookup? a k := by
  cases o <;> simp [setOptStr, dictLookup?_dictSet_same]

/-- The conditional string write of `update_idea`, read at another key. -/
theorem lookup_setOptStr_ne {a : List (String × Json)} {k k' : String}
    {o : Option String} (h : k' ≠ k) :
    dictLookup? (setOptStr a k o) k' = dictLookup? a k' := by
  cases o <;> simp [setOptStr, dictLookup?_dictSet_ne h]

/-- The conditional int write of `update_idea`, read at its own key. -/
theorem lookup_setOptInt_same (a : List (String × Json)) (k : String)
    (o : Option Int) :
    dictLookup? (setOptInt a k o) k =
      match o with
      | some v => some (.int v)
      | none => dictLookup? a k := by
  cases o <;> simp [setOptInt, dictLookup?_dictSet_same]

/-- The conditional int write of `update_idea`, read at another key. -/
theorem lookup_setOptInt_ne {a : List (String × Json)} {k k' : String}
    {o : Option Int} (h : k' ≠ k) :
    dictLookup? (setOptInt a k o) k' = dictLookup? a k' := by
  cases o <;> simp [setOptInt, dictLookup?_dictSet_ne h]

/-- C10: on a permitted `update_idea` call, every field parameter passed as
None leaves the corresponding idea attribute unchanged, every non-None
parameter overwrites exactly its own attribute, every attribute outside the
ten updatable ones (and `user_id`) is untouched, and the single exception is
that an idea without a (truthy) owner has its `user_id` set to the caller
while an owned idea keeps its owner. -/
theorem C10_update_idea_frame :
    ∀ (db : DB) (iid : String) (p : UpdateIdeaParams) (uid : String)
      (db' : DB) (i' i0 : IdeaObj),
      findIdea db iid = some i0 →
      update_idea db iid p uid = .ok (db', i') →
      ((p.title = none →
          dictLookup? i'.attrs "title" = dictLookup? i0.attrs "title") ∧
       (∀ v, p.title = some v →
          dictLookup? i'.attrs "title" = some (.str v))) ∧
      ((p.hook = none →
          dictLookup? i'.attrs "hook" = dictLookup? i0.attrs "hook") ∧
       (∀ v, p.hook = some v →
          dictLookup? i'.attrs "hook" = some (.str v))) ∧
      ((p.value = none →
          dictLookup? i'.attrs "value" = dictLookup? i0.attrs "value") ∧
       (∀ v, p.value = some v →
          dictLookup? i'.attrs "value" = some (.str v))) ∧
      ((p.evidence = none →
          dictLookup? i'.attrs "evidence" = dictLookup? i0.attrs "evidence") ∧
       (∀ v, p.evidence = some v →
          dictLookup? i'.attrs "evidence" = some (.str v))) ∧
      ((p.differentiator = none →
          dictLookup? i'.attrs "differentiator" =
            dictLookup? i0.attrs "differentiator") ∧
       (∀ v, p.differentiator = some v →
          dictLookup? i'.attrs "differentiator" = some (.str v))) ∧
      ((p.call_to_action = none →
          dictLookup? i'.attrs "call_to_action" =
            dictLookup? i0.attrs "call_to_action") ∧
       (∀ v, p.call_to_action = some v →
          dictLookup? i'.attrs "call_to_action" = some (.str v))) ∧
      ((p.score = none →
          dictLookup? i'.attrs "score" = dictLookup? i0.attrs "score") ∧
       (∀ v, p.score = some v →
          dictLookup? i'.attrs "score" = some (.int v))) ∧
      ((p.mvp_effort = none →
          dictLookup? i'.attrs "mvp_effort" =
            dictLookup? i0.attrs "mvp_effort") ∧
       (∀ v, p.mvp_effort = some v →
          dictLookup? i'.attrs "mvp_effort" = some (.int v))) ∧
      ((p.type = none →
          dictLookup? i'.attrs "type" = dictLookup? i0.attrs "type") ∧
       (∀ v, p.type = some v →
          dictLookup? i'.attrs "type" = some (.str v))) ∧
      ((p.status = none →
          dictLookup? i'.attrs "status" = dictLookup? i0.attrs "status") ∧
       (∀ v, p.status = some v →
          dictLookup? i'.attrs "status" = some (.str v))) ∧
      (∀ k, k ∉ (["title", "hook", "value", "evidence", "differentiator",
          "call_to_action", "score", "mvp_effort", "type", "status",
          "user_id"] : List String) →
        dictLookup? i'.attrs k = dictLookup? i0.attrs k) ∧
      (jsonTruthy (dictGetD i0.attrs "user_id" .null) = true →
        dictLookup? i'.attrs "user_id" = dictLookup? i0.attrs "user_id") ∧
      (jsonTruthy (dictGetD i0.attrs "user_id" .null) = false →
        dictLookup? i'.attrs "user_id" = some (.str uid)) := by
  intro db iid p uid db' i' i0 hfind hok
  simp only [update_idea, hfind] at hok
  by_cases hauth : jsonTruthy (dictGetD i0.attrs "user_id" .null) = true ∧
      dictGetD i0.attrs "user_id" .null ≠ .str uid
  · rw [if_pos hauth] at hok
    cases hok
  · rw [if_neg hauth] at hok
    injection hok with hpair
    injection hpair with h1 h2
    subst h1
    subst h2
    have hUID : dictLookup? (applyUpdateParams i0.attrs p) "user_id" =
        dictLookup? i0.attrs "user_id" := by
      simp [applyUpdateParams, lookup_setOptStr_ne, lookup_setOptInt_ne]
    have hGD : dictGetD (applyUpdateParams i0.attrs p) "user_id" Json.null =
        dictGetD i0.attrs "user_id" Json.null := by
      unfold dictGetD
      rw [hUID]
    by_cases hadopt :
        jsonTruthy (dictGetD (applyUpdateParams i0.attrs p) "user_id"
          Json.null) = true
    · refine ⟨⟨?_, ?_⟩, ⟨?_, ?_⟩, ⟨?_, ?_⟩, ⟨?_, ?_⟩, ⟨?_, ?_⟩, ⟨?_, ?_⟩,
        ⟨?_, ?_⟩, ⟨?_, ?_⟩, ⟨?_, ?_⟩, ⟨?_, ?_⟩, ?_, ?_, ?_⟩
      · intro h
        simp only [hadopt]
        simp [applyUpdateParams, lookup_setOptStr_ne,
          lookup_setOptInt_ne, lookup_setOptStr_same, h]
      · intro v h
        simp only [hadopt]
        simp [applyUpdateParams, lookup_setOptStr_ne,
          lookup_setOptInt_ne, lookup_setOptStr_same, h]
      · intro h
        simp only [hadopt]
        simp [applyUpdateParams, lookup_setOptStr_ne,
          lookup_setOptInt_ne, lookup_setOptStr_same, h]
      · intro v h
        simp only [hadopt]
        simp [applyUpdateParams, lookup_setOptStr_ne,
          lookup_setOptInt_ne, lookup_setOptStr_same, h]
      · intro h
        simp only [hadopt]
        simp [applyUpdateParams, lookup_setOptStr_ne,
          lookup_setOptInt_ne, lookup_setOptStr_same, h]
      · intro v h
        simp only [hadopt]
        simp [applyUpdateParams, lookup_setOptStr_ne,
          lookup_setOptInt_ne, lookup_setOptStr_same, h]
      · intro h
        simp only [hadopt]
        simp [applyUpdateParams, lookup_setOptStr_ne,
          lookup_setOptInt_ne, lookup_setOptStr_same, h]
      · intro v h
        simp only [hadopt]
        simp [applyUpdateParams, lookup_setOptStr_ne,
          lookup_setOptInt_ne, lookup_setOptStr_same, h]
      · intro h
        simp only [hadopt]
        simp [applyUpdateParams, lookup_setOptStr_ne,
          lookup_setOptInt_ne, lookup_setOptStr_same, h]
      · intro v h
        simp only [hadopt]
        simp [applyUpdateParams, lookup_setOptStr_ne,
          lookup_setOptInt_ne, lookup_setOptStr_same, h]
      · intro h
        simp only [hadopt]
        simp [applyUpdateParams, lookup_setOptStr_ne,
          lookup_setOptInt_ne, lookup_setOptStr_same, h]
      · intro v h
        simp only [hadopt]
        simp [applyUpdateParams, lookup_setOptStr_ne,
          lookup_setOptInt_ne, lookup_setOptStr_same, h]
      · intro h
        simp only [hadopt]
        simp [applyUpdateParams, lookup_setOptStr_ne,
          lookup_setOptInt_ne, lookup_setOptInt_same, h]
      · intro v h
        simp only [hadopt]
        simp [applyUpdateParams, lookup_setOptStr_ne,
          lookup_setOptInt_ne, lookup_setOptInt_same, h]
      · intro h
        simp only [hadopt]
        simp [applyUpdateParams, lookup_setOptStr_ne,
          lookup_setOptInt_ne, lookup_setOptInt_same, h]
      · intro v h
        simp only [hadopt]
        simp [applyUpdateParams, lookup_setOptStr_ne,
          lookup_setOptInt_ne, lookup_setOptInt_same, h]
      · intro h
        simp only [hadopt]
        simp [applyUpdateParams, lookup_setOptStr_ne,
          lookup_setOptInt_ne, lookup_setOptStr_same, h]
      · intro v h
        simp only [hadopt]
        simp [applyUpdateParams, lookup_setOptStr_ne,
          lookup_setOptInt_ne, lookup_setOptStr_same, h]
      · intro h
        simp only [hadopt]
        simp [applyUpdateParams, lookup_setOptStr_ne,
          lookup_setOptInt_ne, lookup_setOptStr_same, h]
      · intro v h
        simp only [hadopt]
        simp [applyUpdateParams, lookup_setOptStr_ne,
          lookup_setOptInt_ne, lookup_setOptStr_same, h]
      · intro k hk
        simp only [List.mem_cons, List.not_mem_nil, or_false, not_or] at hk
        obtain ⟨k1, k2, k3, k4, k5, k6, k7, k8, k9, k10, k11⟩ := hk
        simp only [hadopt]
        simp [applyUpdateParams, lookup_setOptStr_ne,
          lookup_setOptInt_ne, k1, k2, k3, k4, k5, k6, k7, k8, k9, k10, k11]
      · intro h
        simp only [hadopt]
        simp [hUID]
      · intro h
        rw [hGD] at hadopt
        rw [hadopt] at h
        cases h
    · have hadopt' :
          jsonTruthy (dictGetD i0.attrs "user_id" Json.null) = false := by
        rw [hGD] at hadopt
        exact Bool.eq_false_iff.mpr hadopt
      refine ⟨⟨?_, ?_⟩, ⟨?_, ?_⟩, ⟨?_, ?_⟩, ⟨?_, ?_⟩, ⟨?_, ?_⟩, ⟨?_, ?_⟩,
        ⟨?_, ?_⟩, ⟨?_, ?_⟩, ⟨?_, ?_⟩, ⟨?_, ?_⟩, ?_, ?_, ?_⟩
      · intro h
        simp only [hGD, hadopt']
        simp [dictLookup?_dictSet_ne, applyUpdateParams,
          lookup_setOptStr_ne, lookup_setOptInt_ne, lookup_setOptStr_same, h]
      · intro v h
        simp only [hGD, hadopt']
        simp [dictLookup?_dictSet_ne, applyUpdateParams,
          lookup_setOptStr_ne, lookup_setOptInt_ne, lookup_setOptStr_same, h]
      · intro h
        simp only [hGD, hadopt']
        simp [dictLookup?_dictSet_ne, applyUpdateParams,
          lookup_setOptStr_ne, lookup_setOptInt_ne, lookup_setOptStr_same, h]
      · intro v h
        simp only [hGD, hadopt']
        simp [dictLookup?_dictSet_ne, applyUpdateParams,
          lookup_setOptStr_ne, lookup_setOptInt_ne, lookup_setOptStr_same, h]
      · intro h
        simp only [hGD, hadopt']
        simp [dictLookup?_dictSet_ne, applyUpdateParams,
          lookup_setOptStr_ne, lookup_setOptInt_ne, lookup_setOptStr_same, h]
      · intro v h
        simp only [hGD, hadopt']
        simp [dictLookup?_dictSet_ne, applyUpdateParams,
          lookup_setOptStr_ne, lookup_setOptInt_ne, lookup_setOptStr_same, h]
      · intro h
        simp only [hGD, hadopt']
        simp [dictLookup?_dictSet_ne, applyUpdateParams,
          lookup_setOptStr_ne, lookup_setOptInt_ne, lookup_setOptStr_same, h]
      · intro v h
        simp only [hGD, hadopt']
        simp [dictLookup?_dictSet_ne, applyUpdateParams,
          lookup_setOptStr_ne, lookup_setOptInt_ne, lookup_setOptStr_same, h]
      · intro h
        simp only [hGD, hadopt']
        simp [dictLookup?_dictSet_ne, applyUpdateParams,
          lookup_setOptStr_ne, lookup_setOptInt_ne, lookup_setOptStr_same, h]
      · intro v h
        simp only [hGD, hadopt']
        simp [dictLookup?_dictSet_ne, applyUpdateParams,
          lookup_setOptStr_ne, lookup_setOptInt_ne, lookup_setOptStr_same, h]
      · intro h
        simp only [hGD, hadopt']
        simp [dictLookup?_dictSet_ne, applyUpdateParams,
          lookup_setOptStr_ne, lookup_setOptInt_ne, lookup_setOptStr_same, h]
      · intro v h
        simp only [hGD, hadopt']
        simp [dictLookup?_dictSet_ne, applyUpdateParams,
          lookup_setOptStr_ne, lookup_setOptInt_ne, lookup_setOptStr_same, h]
      · intro h
        simp only [hGD, hadopt']
        simp [dictLookup?_dictSet_ne, applyUpdateParams,
          lookup_setOptStr_ne, lookup_setOptInt_ne, lookup_setOptInt_same, h]
      · intro v h
        simp only [hGD, hadopt']
        simp [dictLookup?_dictSet_ne, applyUpdateParams,
          lookup_setOptStr_ne, lookup_setOptInt_ne, lookup_setOptInt_same, h]
      · intro h
        simp only [hGD, hadopt']
        simp [dictLookup?_dictSet_ne, applyUpdateParams,
          lookup_setOptStr_ne, lookup_setOptInt_ne, lookup_setOptInt_same, h]
      · intro v h
        simp only [hGD, hadopt']
        simp [dictLookup?_dictSet_ne, applyUpdateParams,
          lookup_setOptStr_ne, lookup_setOptInt_ne, lookup_setOptInt_same, h]
      · intro h
        simp only [hGD, hadopt']
        simp [dictLookup?_dictSet_ne, applyUpdateParams,
          lookup_setOptStr_ne, lookup_setOptInt_ne, lookup_setOptStr_same, h]
      · intro v h
        simp only [hGD, hadopt']
        simp [dictLookup?_dictSet_ne, applyUpdateParams,
          lookup_setOptStr_ne, lookup_setOptInt_ne, lookup_setOptStr_same, h]
      · intro h
        simp only [hGD, hadopt']
        simp [dictLookup?_dictSet_ne, applyUpdateParams,
          lookup_setOptStr_ne, lookup_setOptInt_ne, lookup_setOptStr_same, h]
      · intro v h
        simp only [hGD, hadopt']
        simp [dictLookup?_dictSet_ne, applyUpdateParams,
          lookup_setOptStr_ne, lookup_setOptInt_ne, lookup_setOptStr_same, h]
      · intro k hk
        simp only [List.mem_cons, List.not_mem_nil, or_false, not_or] at hk
        obtain ⟨k1, k2, k3, k4, k5, k6, k7, k8, k9, k10, k11⟩ := hk
        simp only [hGD, hadopt']
        simp [dictLookup?_dictSet_ne k11, applyUpdateParams,
          lookup_setOptStr_ne, lookup_setOptInt_ne, k1, k2, k3, k4, k5, k6,
          k7, k8, k9, k10]
      · intro h
        rw [hadopt'] at h
        cases h
      · intro h
        simp only [hGD, hadopt']
        simp [dictLookup?_dictSet_same]

/-- Witness for C10 on `dbW10`: with only `title` provided, the title is
written, the untouched attribute `deep_dive` keeps its value, and the
ownerless idea is adopted by the caller. -/
theorem C10_update_idea_frame_witness :
    update_idea dbW10 "i2" pW10 "u1" = .ok (dbW10', iW10') ∧
    dictLookup? iW10'.attrs "title" = some (.str "New") ∧
    dictLookup? iW10'.attrs "deep_dive" = some (.obj []) ∧
    dictLookup? iW10'.attrs "user_id" = some (.str "u1") := by
  obtain ⟨⟨-, ht⟩, -, -, -, -, -, -, -, -, -, hframe, -, huid⟩ :=
    C10_update_idea_frame dbW10 "i2" pW10 "u1" dbW10' iW10'
      ⟨[("id", .str "i2"), ("user_id", .null), ("title", .str "Old"),
        ("deep_dive", .obj [])]⟩ (by rfl) (by rfl)
  refine ⟨by rfl, ht "New" rfl, ?_, huid (by rfl)⟩
  have hd := hframe "deep_dive" (by decide)
  rw [hd]
  rfl

end Id8
